import Mathlib

/-!
Verification of the FlipClock firmware dial-positioning logic.

The firmware drives two continuous-rotation servos (minute, hour) against
limit switches.  We shallowly embed the state of the sketch
(`Arduino_RTC_FlipClock.ino`, with its second variant, and the WiFi
variant) as a Lean record, and each C function as a Lean function.

Conventions of the embedding:
- Arduino `digitalRead` values: `HIGH` = `true`, `LOW` = `false`
  (the switches are pulled up, pressed = `LOW`).
- Each switch input is a finite list of successive readings; a blocking
  `while (read == X)` poll loop is a recursion consuming that list, and
  returns `none` when the modeled readings run out (the C code would
  still be blocked waiting).
- C `int` arithmetic on the counters is `Int` with `Int.tmod`
  (C's `%` truncates toward zero).
- `millis()` is a `Nat` parameter; `unsigned long` subtraction is
  subtraction modulo 2^32.
- Every `servo.write(v)` appends `v` to a per-servo command trace, so
  that theorems can speak about every command ever issued.
- `rtc.adjust` sets the stored hour/minute and bumps a write counter;
  `rtc.now()` reads the stored hour/minute.
- Every branch of `handleButtons` that records `lastButtonPressTime`
  also bumps a `buttonEvents` counter, so that theorems can count the
  button actions performed by one invocation of the handler.
-/

/-- Arduino `HIGH` digital level. -/
def HIGH : Bool := true

/-- Arduino `LOW` digital level (a pulled-up switch reads `LOW` when pressed). -/
def LOW : Bool := false

/-- C `unsigned long` (32-bit) subtraction `a - b`, as used by
`millis() - lastButtonPressTime`. -/
def sub32 (a b : Nat) : Nat := (a + (2 ^ 32 - b % 2 ^ 32)) % 2 ^ 32

/-- `enum ClockState { NORMAL_MODE, SETTING_MODE }`. -/
inductive ClockMode where
  | NORMAL_MODE : ClockMode
  | SETTING_MODE : ClockMode
deriving DecidableEq, Repr

/-- The instantaneous levels of the four push buttons at one invocation of
`handleButtons` (`true` means the pin reads `LOW`, i.e. pressed). -/
structure Buttons where
  modeCancel : Bool
  hourInc : Bool
  minuteInc : Bool
  save : Bool
deriving DecidableEq, Repr

/-- The mutable state of the sketch: the two dial position counters, the
mode machine, the setting scratch variables, the debounce timestamp, the
RTC's stored time (with a count of writes to it), the two servo command
traces, and the button-action event counter (instrumentation). -/
structure ClockState where
  currentMinuteOnClock : Int
  currentHourOnClock : Int
  currentMode : ClockMode
  settingHour : Int
  settingMinute : Int
  lastButtonPressTime : Nat
  rtcHour : Int
  rtcMinute : Int
  rtcWrites : Nat
  minuteCmds : List Int
  hourCmds : List Int
  buttonEvents : Nat
deriving DecidableEq, Repr

/-- The environment: the pending readings of the four limit switches
(`true` = `HIGH` = not pressed). -/
structure Env where
  homeMin : List Bool
  stepMin : List Bool
  homeHour : List Bool
  stepHour : List Bool
deriving DecidableEq, Repr

/-- `while (digitalRead(pin) == (!target)) { delay(...); }` over a finite
list of modeled readings: consume readings until one equals `target`,
returning the rest; `none` if the readings run out (the loop would still
be blocking). -/
def waitUntilRead (target : Bool) : List Bool → Option (List Bool)
  | [] => none
  | r :: rs => if r = target then some rs else waitUntilRead target rs

/-- `servoMinute.write v`. -/
def writeMinuteServo (v : Int) (s : ClockState) : ClockState :=
  { s with minuteCmds := s.minuteCmds ++ [v] }

/-- `servoHour.write v`. -/
def writeHourServo (v : Int) (s : ClockState) : ClockState :=
  { s with hourCmds := s.hourCmds ++ [v] }

/-- `rtc.adjust(DateTime(..., h, m, 0))`: store the new hour and minute and
count the write. -/
def rtcAdjust (h m : Int) (s : ClockState) : ClockState :=
  { s with rtcHour := h, rtcMinute := m, rtcWrites := s.rtcWrites + 1 }

/-- `lastButtonPressTime = millis();` together with the instrumentation
counter of button actions. -/
def recordPress (now : Nat) (s : ClockState) : ClockState :=
  { s with lastButtonPressTime := now, buttonEvents := s.buttonEvents + 1 }

namespace FlipClockRTC

/-- `#define SERVO_STOP_POSITION 90`. -/
def SERVO_STOP_POSITION : Int := 90

/-- `#define SERVO_MOVE_OFFSET_MINUTE 15`. -/
def SERVO_MOVE_OFFSET_MINUTE : Int := 15

/-- `#define SERVO_MOVE_OFFSET_HOUR (-15)`. -/
def SERVO_MOVE_OFFSET_HOUR : Int := -15

/-- `const int debounceDelay = 250`. -/
def debounceDelay : Nat := 250

/-- The homing poll loop of `goHomeMinute`: while the home switch reads
`HIGH`, command the servo forward; the reading that breaks the loop is
`LOW`. -/
def goHomeMinuteLoop : List Bool → ClockState → Option (ClockState × List Bool)
  | [], _ => none
  | r :: rs, s =>
    if r = HIGH then
      goHomeMinuteLoop rs
        (writeMinuteServo (SERVO_STOP_POSITION + SERVO_MOVE_OFFSET_MINUTE) s)
    else some (s, rs)

/-- `void goHomeMinute()`: drive forward until the minute home switch is
pressed, stop, and set `currentMinuteOnClock = 0`. -/
def goHomeMinute (s : ClockState) (e : Env) : Option (ClockState × Env) :=
  match goHomeMinuteLoop e.homeMin s with
  | none => none
  | some (s1, rs) =>
    some ({ writeMinuteServo SERVO_STOP_POSITION s1 with currentMinuteOnClock := 0 },
          { e with homeMin := rs })

/-- The homing poll loop of `goHomeHour`. -/
def goHomeHourLoop : List Bool → ClockState → Option (ClockState × List Bool)
  | [], _ => none
  | r :: rs, s =>
    if r = HIGH then
      goHomeHourLoop rs
        (writeHourServo (SERVO_STOP_POSITION + SERVO_MOVE_OFFSET_HOUR) s)
    else some (s, rs)

/-- `void goHomeHour()`: drive forward until the hour home switch is
pressed, stop, and set `currentHourOnClock = 0`. -/
def goHomeHour (s : ClockState) (e : Env) : Option (ClockState × Env) :=
  match goHomeHourLoop e.homeHour s with
  | none => none
  | some (s1, rs) =>
    some ({ writeHourServo SERVO_STOP_POSITION s1 with currentHourOnClock := 0 },
          { e with homeHour := rs })

/-- `void moveMinuteStep()`: command forward, wait for the step switch to
be pressed then released, stop, and do
`currentMinuteOnClock = (currentMinuteOnClock + 1) % 60` (C `%`). -/
def moveMinuteStep (s : ClockState) (e : Env) : Option (ClockState × Env) :=
  let s1 := writeMinuteServo (SERVO_STOP_POSITION + SERVO_MOVE_OFFSET_MINUTE) s
  match waitUntilRead LOW e.stepMin with
  | none => none
  | some rs1 =>
    match waitUntilRead HIGH rs1 with
    | none => none
    | some rs2 =>
      let s2 := writeMinuteServo SERVO_STOP_POSITION s1
      some ({ s2 with currentMinuteOnClock := (s2.currentMinuteOnClock + 1).tmod 60 },
            { e with stepMin := rs2 })

/-- `void performHourSingleStep()`: one physical step of the hour gear; the
hour counter is not touched. -/
def performHourSingleStep (s : ClockState) (e : Env) : Option (ClockState × Env) :=
  let s1 := writeHourServo (SERVO_STOP_POSITION + SERVO_MOVE_OFFSET_HOUR) s
  match waitUntilRead LOW e.stepHour with
  | none => none
  | some rs1 =>
    match waitUntilRead HIGH rs1 with
    | none => none
    | some rs2 =>
      some (writeHourServo SERVO_STOP_POSITION s1, { e with stepHour := rs2 })

/-- `void moveHourToNext()`: two physical single steps, then
`currentHourOnClock = (currentHourOnClock + 1) % 24` (C `%`). -/
def moveHourToNext (s : ClockState) (e : Env) : Option (ClockState × Env) :=
  match performHourSingleStep s e with
  | none => none
  | some (s1, e1) =>
    match performHourSingleStep s1 e1 with
    | none => none
    | some (s2, e2) =>
      some ({ s2 with currentHourOnClock := (s2.currentHourOnClock + 1).tmod 24 }, e2)

/-- The `while (currentHourOnClock != actualHour) moveHourToNext();` loop of
`syncClockToRTC`, with fuel bounding the number of modeled iterations. -/
def syncHourLoop : Nat → Int → ClockState → Env → Option (ClockState × Env)
  | 0, actualHour, s, e =>
    if s.currentHourOnClock = actualHour then some (s, e) else none
  | fuel + 1, actualHour, s, e =>
    if s.currentHourOnClock = actualHour then some (s, e)
    else
      match moveHourToNext s e with
      | none => none
      | some (s1, e1) => syncHourLoop fuel actualHour s1 e1

/-- The `while (currentMinuteOnClock != actualMinute) moveMinuteStep();`
loop of `syncClockToRTC`. -/
def syncMinuteLoop : Nat → Int → ClockState → Env → Option (ClockState × Env)
  | 0, actualMinute, s, e =>
    if s.currentMinuteOnClock = actualMinute then some (s, e) else none
  | fuel + 1, actualMinute, s, e =>
    if s.currentMinuteOnClock = actualMinute then some (s, e)
    else
      match moveMinuteStep s e with
      | none => none
      | some (s1, e1) => syncMinuteLoop fuel actualMinute s1 e1

/-- `void syncClockToRTC()`: read the RTC, then advance the hour dial until
it matches, then the minute dial until it matches. -/
def syncClockToRTC (fuelH fuelM : Nat) (s : ClockState) (e : Env) :
    Option (ClockState × Env) :=
  let actualMinute := s.rtcMinute
  let actualHour := s.rtcHour
  match syncHourLoop fuelH actualHour s e with
  | none => none
  | some (s1, e1) => syncMinuteLoop fuelM actualMinute s1 e1

/-- `void handleButtons()` of the primary RTC sketch: debounce guard, then
in `NORMAL_MODE` only the mode button is live, and in `SETTING_MODE` an
`else if` chain checks hour+, minute+, save, cancel in that order. -/
def handleButtons (now : Nat) (b : Buttons) (fuelH fuelM : Nat)
    (s : ClockState) (e : Env) : Option (ClockState × Env) :=
  if sub32 now s.lastButtonPressTime < debounceDelay then some (s, e)
  else
    match s.currentMode with
    | ClockMode.NORMAL_MODE =>
      if b.modeCancel then
        let s1 := recordPress now s
        let s2 := { s1 with
          currentMode := ClockMode.SETTING_MODE,
          settingHour := s1.rtcHour,
          settingMinute := s1.rtcMinute }
        some (s2, e)
      else some (s, e)
    | ClockMode.SETTING_MODE =>
      if b.hourInc then
        let s1 := recordPress now s
        let s2 := { s1 with settingHour := (s1.settingHour + 1).tmod 24 }
        moveHourToNext s2 e
      else if b.minuteInc then
        let s1 := recordPress now s
        let s2 := { s1 with settingMinute := (s1.settingMinute + 1).tmod 60 }
        moveMinuteStep s2 e
      else if b.save then
        let s1 := recordPress now s
        let s2 := rtcAdjust s1.settingHour s1.settingMinute s1
        some ({ s2 with currentMode := ClockMode.NORMAL_MODE }, e)
      else if b.modeCancel then
        let s1 := recordPress now s
        let s2 := { s1 with currentMode := ClockMode.NORMAL_MODE }
        syncClockToRTC fuelH fuelM s2 e
      else some (s, e)

end FlipClockRTC

namespace FlipClockRTC2

/-- `#define SERVO_STOP_POSITION 90` (second RTC sketch). -/
def SERVO_STOP_POSITION : Int := 90

/-- `#define SERVO_MOVE_OFFSET_MINUTE 5` (second RTC sketch). -/
def SERVO_MOVE_OFFSET_MINUTE : Int := 5

/-- `#define SERVO_MOVE_OFFSET_HOUR (-5)` (second RTC sketch). -/
def SERVO_MOVE_OFFSET_HOUR : Int := -5

/-- `const int debounceDelay = 250` (second RTC sketch). -/
def debounceDelay : Nat := 250

/-- `void moveMinuteStep()` of the second RTC sketch. -/
def moveMinuteStep (s : ClockState) (e : Env) : Option (ClockState × Env) :=
  let s1 := writeMinuteServo (SERVO_STOP_POSITION + SERVO_MOVE_OFFSET_MINUTE) s
  match waitUntilRead LOW e.stepMin with
  | none => none
  | some rs1 =>
    match waitUntilRead HIGH rs1 with
    | none => none
    | some rs2 =>
      let s2 := writeMinuteServo SERVO_STOP_POSITION s1
      some ({ s2 with currentMinuteOnClock := (s2.currentMinuteOnClock + 1).tmod 60 },
            { e with stepMin := rs2 })

/-- `void performHourSingleStep()` of the second RTC sketch. -/
def performHourSingleStep (s : ClockState) (e : Env) : Option (ClockState × Env) :=
  let s1 := writeHourServo (SERVO_STOP_POSITION + SERVO_MOVE_OFFSET_HOUR) s
  match waitUntilRead LOW e.stepHour with
  | none => none
  | some rs1 =>
    match waitUntilRead HIGH rs1 with
    | none => none
    | some rs2 =>
      some (writeHourServo SERVO_STOP_POSITION s1, { e with stepHour := rs2 })

/-- `void moveHourToNext()` of the second RTC sketch. -/
def moveHourToNext (s : ClockState) (e : Env) : Option (ClockState × Env) :=
  match performHourSingleStep s e with
  | none => none
  | some (s1, e1) =>
    match performHourSingleStep s1 e1 with
    | none => none
    | some (s2, e2) =>
      some ({ s2 with currentHourOnClock := (s2.currentHourOnClock + 1).tmod 24 }, e2)

/-- The hour loop of `syncClockToRTC` (second RTC sketch). -/
def syncHourLoop : Nat → Int → ClockState → Env → Option (ClockState × Env)
  | 0, actualHour, s, e =>
    if s.currentHourOnClock = actualHour then some (s, e) else none
  | fuel + 1, actualHour, s, e =>
    if s.currentHourOnClock = actualHour then some (s, e)
    else
      match moveHourToNext s e with
      | none => none
      | some (s1, e1) => syncHourLoop fuel actualHour s1 e1

/-- The minute loop of `syncClockToRTC` (second RTC sketch). -/
def syncMinuteLoop : Nat → Int → ClockState → Env → Option (ClockState × Env)
  | 0, actualMinute, s, e =>
    if s.currentMinuteOnClock = actualMinute then some (s, e) else none
  | fuel + 1, actualMinute, s, e =>
    if s.currentMinuteOnClock = actualMinute then some (s, e)
    else
      match moveMinuteStep s e with
      | none => none
      | some (s1, e1) => syncMinuteLoop fuel actualMinute s1 e1

/-- `void syncClockToRTC()` of the second RTC sketch. -/
def syncClockToRTC (fuelH fuelM : Nat) (s : ClockState) (e : Env) :
    Option (ClockState × Env) :=
  let actualMinute := s.rtcMinute
  let actualHour := s.rtcHour
  match syncHourLoop fuelH actualHour s e with
  | none => none
  | some (s1, e1) => syncMinuteLoop fuelM actualMinute s1 e1

/-- `void handleButtons()` of the second RTC sketch: the debounce guard and
the `NORMAL_MODE` branch are as in the primary sketch, but in
`SETTING_MODE` the four button checks are four independent `if`
statements executed in sequence (hour+, minute+, save, cancel), so several
of them can fire in one invocation. -/
def handleButtons (now : Nat) (b : Buttons) (fuelH fuelM : Nat)
    (s : ClockState) (e : Env) : Option (ClockState × Env) :=
  if sub32 now s.lastButtonPressTime < debounceDelay then some (s, e)
  else
    match s.currentMode with
    | ClockMode.NORMAL_MODE =>
      if b.modeCancel then
        let s1 := recordPress now s
        let s2 := { s1 with
          currentMode := ClockMode.SETTING_MODE,
          settingHour := s1.rtcHour,
          settingMinute := s1.rtcMinute }
        some (s2, e)
      else some (s, e)
    | ClockMode.SETTING_MODE =>
      let step1 : Option (ClockState × Env) :=
        if b.hourInc then
          let s1 := recordPress now s
          let s2 := { s1 with settingHour := (s1.settingHour + 1).tmod 24 }
          moveHourToNext s2 e
        else some (s, e)
      match step1 with
      | none => none
      | some (sA, eA) =>
        let step2 : Option (ClockState × Env) :=
          if b.minuteInc then
            let s1 := recordPress now sA
            let s2 := { s1 with settingMinute := (s1.settingMinute + 1).tmod 60 }
            moveMinuteStep s2 eA
          else some (sA, eA)
        match step2 with
        | none => none
        | some (sB, eB) =>
          let step3 : ClockState :=
            if b.save then
              let s1 := recordPress now sB
              let s2 := rtcAdjust s1.settingHour s1.settingMinute s1
              { s2 with currentMode := ClockMode.NORMAL_MODE }
            else sB
          if b.modeCancel then
            let s1 := recordPress now step3
            let s2 := { s1 with currentMode := ClockMode.NORMAL_MODE }
            syncClockToRTC fuelH fuelM s2 eB
          else some (step3, eB)

end FlipClockRTC2

/-- A stream of switch readings consisting of `n` press/release cycles:
each cycle is one `LOW` (pressed) reading followed by one `HIGH`
(released) reading. -/
def pressReleases : Nat → List Bool
  | 0 => []
  | n + 1 => LOW :: HIGH :: pressReleases n

namespace FlipClockRTC

/-- A value written to the minute servo is legal when it is the stop pulse
or the stop pulse plus the minute dial's fixed forward offset. -/
def minuteCmdOK (c : Int) : Prop :=
  c = SERVO_STOP_POSITION ∨ c = SERVO_STOP_POSITION + SERVO_MOVE_OFFSET_MINUTE

/-- A value written to the hour servo is legal when it is the stop pulse
or the stop pulse plus the hour dial's fixed forward offset. -/
def hourCmdOK (c : Int) : Prop :=
  c = SERVO_STOP_POSITION ∨ c = SERVO_STOP_POSITION + SERVO_MOVE_OFFSET_HOUR

/-- Every command ever issued to either servo is legal. -/
def CmdInv (s : ClockState) : Prop :=
  (∀ c ∈ s.minuteCmds, minuteCmdOK c) ∧ (∀ c ∈ s.hourCmds, hourCmdOK c)

/-- The two position counters are in range, or exactly `-1` (unhomed). -/
def PosInv (s : ClockState) : Prop :=
  (s.currentMinuteOnClock = -1 ∨
    (0 ≤ s.currentMinuteOnClock ∧ s.currentMinuteOnClock < 60)) ∧
  (s.currentHourOnClock = -1 ∨
    (0 ≤ s.currentHourOnClock ∧ s.currentHourOnClock < 24))

end FlipClockRTC

theorem waitUntilRead_hit (t : Bool) (rs : List Bool) :
    waitUntilRead t (t :: rs) = some rs := by
  simp [waitUntilRead]

namespace FlipClockRTC

theorem moveMinuteStep_canonical (s : ClockState) (e : Env) (rest : List Bool)
    (h : e.stepMin = LOW :: HIGH :: rest) :
    moveMinuteStep s e = some
      ({ s with
          currentMinuteOnClock := (s.currentMinuteOnClock + 1).tmod 60,
          minuteCmds := s.minuteCmds ++
            [SERVO_STOP_POSITION + SERVO_MOVE_OFFSET_MINUTE, SERVO_STOP_POSITION] },
        { e with stepMin := rest }) := by
  simp [moveMinuteStep, h, waitUntilRead, writeMinuteServo, HIGH, LOW]

theorem performHourSingleStep_canonical (s : ClockState) (e : Env) (rest : List Bool)
    (h : e.stepHour = LOW :: HIGH :: rest) :
    performHourSingleStep s e = some
      ({ s with
          hourCmds := s.hourCmds ++
            [SERVO_STOP_POSITION + SERVO_MOVE_OFFSET_HOUR, SERVO_STOP_POSITION] },
        { e with stepHour := rest }) := by
  simp [performHourSingleStep, h, waitUntilRead, writeHourServo, HIGH, LOW]

theorem moveHourToNext_canonical (s : ClockState) (e : Env) (rest : List Bool)
    (h : e.stepHour = LOW :: HIGH :: LOW :: HIGH :: rest) :
    moveHourToNext s e = some
      ({ s with
          currentHourOnClock := (s.currentHourOnClock + 1).tmod 24,
          hourCmds := s.hourCmds ++
            [SERVO_STOP_POSITION + SERVO_MOVE_OFFSET_HOUR, SERVO_STOP_POSITION,
             SERVO_STOP_POSITION + SERVO_MOVE_OFFSET_HOUR, SERVO_STOP_POSITION] },
        { e with stepHour := rest }) := by
  rw [moveHourToNext, performHourSingleStep_canonical s e (LOW :: HIGH :: rest) h]
  dsimp only
  rw [performHourSingleStep_canonical _ _ rest rfl]
  simp

theorem moveMinuteStep_some {s s' : ClockState} {e e' : Env}
    (h : moveMinuteStep s e = some (s', e')) :
    s' = { s with
      currentMinuteOnClock := (s.currentMinuteOnClock + 1).tmod 60,
      minuteCmds := s.minuteCmds ++
        [SERVO_STOP_POSITION + SERVO_MOVE_OFFSET_MINUTE, SERVO_STOP_POSITION] } ∧
    e'.homeMin = e.homeMin ∧ e'.homeHour = e.homeHour ∧ e'.stepHour = e.stepHour := by
  unfold moveMinuteStep at h
  cases hw1 : waitUntilRead LOW e.stepMin with
  | none => rw [hw1] at h; simp at h
  | some rs1 =>
    simp only [hw1] at h
    cases hw2 : waitUntilRead HIGH rs1 with
    | none => simp only [hw2] at h; simp at h
    | some rs2 =>
      simp only [hw2] at h
      simp [writeMinuteServo] at h
      obtain ⟨h1, h2⟩ := h
      subst h1; subst h2
      simp [writeMinuteServo]

theorem performHourSingleStep_some {s s' : ClockState} {e e' : Env}
    (h : performHourSingleStep s e = some (s', e')) :
    s' = { s with
      hourCmds := s.hourCmds ++
        [SERVO_STOP_POSITION + SERVO_MOVE_OFFSET_HOUR, SERVO_STOP_POSITION] } ∧
    e'.homeMin = e.homeMin ∧ e'.homeHour = e.homeHour ∧ e'.stepMin = e.stepMin := by
  unfold performHourSingleStep at h
  cases hw1 : waitUntilRead LOW e.stepHour with
  | none => rw [hw1] at h; simp at h
  | some rs1 =>
    simp only [hw1] at h
    cases hw2 : waitUntilRead HIGH rs1 with
    | none => simp only [hw2] at h; simp at h
    | some rs2 =>
      simp only [hw2] at h
      simp [writeHourServo] at h
      obtain ⟨h1, h2⟩ := h
      subst h1; subst h2
      simp [writeHourServo]

theorem moveHourToNext_some {s s' : ClockState} {e e' : Env}
    (h : moveHourToNext s e = some (s', e')) :
    s' = { s with
      currentHourOnClock := (s.currentHourOnClock + 1).tmod 24,
      hourCmds := s.hourCmds ++
        [SERVO_STOP_POSITION + SERVO_MOVE_OFFSET_HOUR, SERVO_STOP_POSITION,
         SERVO_STOP_POSITION + SERVO_MOVE_OFFSET_HOUR, SERVO_STOP_POSITION] } ∧
    e'.homeMin = e.homeMin ∧ e'.homeHour = e.homeHour ∧ e'.stepMin = e.stepMin := by
  unfold moveHourToNext at h
  cases h1 : performHourSingleStep s e with
  | none => rw [h1] at h; simp at h
  | some p1 =>
    obtain ⟨s1, e1⟩ := p1
    simp only [h1] at h
    cases h2 : performHourSingleStep s1 e1 with
    | none => simp only [h2] at h; simp at h
    | some p2 =>
      obtain ⟨s2, e2⟩ := p2
      simp only [h2] at h
      simp at h
      obtain ⟨hs, he⟩ := h
      obtain ⟨hs1, he1a, he1b, he1c⟩ := performHourSingleStep_some h1
      obtain ⟨hs2, he2a, he2b, he2c⟩ := performHourSingleStep_some h2
      subst hs; subst he; subst hs1; subst hs2
      refine ⟨by simp, ?_, ?_, ?_⟩
      · rw [he2a, he1a]
      · rw [he2b, he1b]
      · rw [he2c, he1c]

end FlipClockRTC

/-- The counter update of a minute single step:
`(x + 1) % 60` with C truncating `%`. -/
def minuteSucc (x : Int) : Int := (x + 1).tmod 60

/-- The counter update of a logical hour advance:
`(x + 1) % 24` with C truncating `%`. -/
def hourSucc (x : Int) : Int := (x + 1).tmod 24

theorem tmod_sixty_self (x : Int) (h1 : -1 ≤ x) (h2 : x < 60) : x.tmod 60 = x := by
  rcases eq_or_lt_of_le h1 with h | h
  · rw [← h]; decide
  · have h0 : 0 ≤ x := by omega
    rw [Int.tmod_eq_emod h0 (by norm_num)]
    exact Int.emod_eq_of_lt h0 h2

theorem tmod_twentyfour_self (x : Int) (h1 : -1 ≤ x) (h2 : x < 24) : x.tmod 24 = x := by
  rcases eq_or_lt_of_le h1 with h | h
  · rw [← h]; decide
  · have h0 : 0 ≤ x := by omega
    rw [Int.tmod_eq_emod h0 (by norm_num)]
    exact Int.emod_eq_of_lt h0 h2

theorem minute_tmod_step (a : Int) (ha : -1 ≤ a) :
    ((a.tmod 60) + 1).tmod 60 = (a + 1).tmod 60 := by
  rcases eq_or_lt_of_le ha with h | h
  · rw [← h]; decide
  · have h0 : 0 ≤ a := by omega
    rw [Int.tmod_eq_emod h0 (by norm_num)]
    have e1 : ((a % 60) + 1).tmod 60 = (a % 60 + 1) % 60 :=
      Int.tmod_eq_emod (by omega) (by norm_num)
    have e2 : (a + 1).tmod 60 = (a + 1) % 60 :=
      Int.tmod_eq_emod (by omega) (by norm_num)
    rw [e1, e2]
    omega

theorem hour_tmod_step (a : Int) (ha : -1 ≤ a) :
    ((a.tmod 24) + 1).tmod 24 = (a + 1).tmod 24 := by
  rcases eq_or_lt_of_le ha with h | h
  · rw [← h]; decide
  · have h0 : 0 ≤ a := by omega
    rw [Int.tmod_eq_emod h0 (by norm_num)]
    have e1 : ((a % 24) + 1).tmod 24 = (a % 24 + 1) % 24 :=
      Int.tmod_eq_emod (by omega) (by norm_num)
    have e2 : (a + 1).tmod 24 = (a + 1) % 24 :=
      Int.tmod_eq_emod (by omega) (by norm_num)
    rw [e1, e2]
    omega

/-- Iterating the minute counter update from any value the counter can hold
(`-1` or `0..59`) gives `(initial + N) % 60` for every `N`. -/
theorem minuteSucc_iterate (x : Int) (h1 : -1 ≤ x) (h2 : x < 60) :
    ∀ k : Nat, minuteSucc^[k] x = (x + k).tmod 60 := by
  intro k
  induction k with
  | zero =>
    simpa using (tmod_sixty_self x h1 h2).symm
  | succ k ih =>
    rw [Function.iterate_succ_apply', ih]
    show ((x + k).tmod 60 + 1).tmod 60 = (x + (k + 1 : Nat)).tmod 60
    have : (x + ((k : Nat) + 1 : Nat) : Int) = (x + k) + 1 := by push_cast; ring
    rw [this]
    exact minute_tmod_step (x + k) (by omega)

/-- Iterating the hour counter update from any value the counter can hold
(`-1` or `0..23`) gives `(initial + N) % 24` for every `N`. -/
theorem hourSucc_iterate (x : Int) (h1 : -1 ≤ x) (h2 : x < 24) :
    ∀ k : Nat, hourSucc^[k] x = (x + k).tmod 24 := by
  intro k
  induction k with
  | zero =>
    simpa using (tmod_twentyfour_self x h1 h2).symm
  | succ k ih =>
    rw [Function.iterate_succ_apply', ih]
    show ((x + k).tmod 24 + 1).tmod 24 = (x + (k + 1 : Nat)).tmod 24
    have : (x + ((k : Nat) + 1 : Nat) : Int) = (x + k) + 1 := by push_cast; ring
    rw [this]
    exact hour_tmod_step (x + k) (by omega)

theorem pressReleases_succ (n : Nat) :
    pressReleases (n + 1) = LOW :: HIGH :: pressReleases n := rfl

theorem pressReleases_add (a b : Nat) :
    pressReleases (a + b) = pressReleases a ++ pressReleases b := by
  induction a with
  | zero => simp [pressReleases]
  | succ a ih =>
    have : a + 1 + b = (a + b) + 1 := by omega
    rw [this, pressReleases_succ, pressReleases_succ, ih]
    simp

/-- From any counter value the dial can hold and any in-range target, some
number `k ≤ 24` of hour advances reaches the target. -/
theorem exists_hour_steps (h t : Int)
    (hh : h = -1 ∨ (0 ≤ h ∧ h < 24)) (ht0 : 0 ≤ t) (ht1 : t < 24) :
    ∃ k : Nat, k ≤ 24 ∧ hourSucc^[k] h = t := by
  have hrange : -1 ≤ h ∧ h < 24 := by rcases hh with h' | h' <;> omega
  rcases hh with h' | h'
  · refine ⟨t.toNat + 1, by omega, ?_⟩
    rw [hourSucc_iterate h hrange.1 hrange.2]
    subst h'
    have : (-1 + ((t.toNat + 1 : Nat) : Int)) = t := by omega
    rw [this]
    exact tmod_twentyfour_self t (by omega) ht1
  · refine ⟨((t - h) % 24).toNat, by omega, ?_⟩
    rw [hourSucc_iterate h hrange.1 hrange.2]
    have hcast : ((((t - h) % 24).toNat : Nat) : Int) = (t - h) % 24 := by omega
    rw [hcast]
    have hnn : 0 ≤ h + (t - h) % 24 := by omega
    rw [Int.tmod_eq_emod hnn (by norm_num)]
    omega

/-- From any counter value the dial can hold and any in-range target, some
number `k ≤ 60` of minute steps reaches the target. -/
theorem exists_minute_steps (m t : Int)
    (hm : m = -1 ∨ (0 ≤ m ∧ m < 60)) (ht0 : 0 ≤ t) (ht1 : t < 60) :
    ∃ k : Nat, k ≤ 60 ∧ minuteSucc^[k] m = t := by
  have hrange : -1 ≤ m ∧ m < 60 := by rcases hm with h' | h' <;> omega
  rcases hm with h' | h'
  · refine ⟨t.toNat + 1, by omega, ?_⟩
    rw [minuteSucc_iterate m hrange.1 hrange.2]
    subst h'
    have : (-1 + ((t.toNat + 1 : Nat) : Int)) = t := by omega
    rw [this]
    exact tmod_sixty_self t (by omega) ht1
  · refine ⟨((t - m) % 60).toNat, by omega, ?_⟩
    rw [minuteSucc_iterate m hrange.1 hrange.2]
    have hcast : ((((t - m) % 60).toNat : Nat) : Int) = (t - m) % 60 := by omega
    rw [hcast]
    have hnn : 0 ≤ m + (t - m) % 60 := by omega
    rw [Int.tmod_eq_emod hnn (by norm_num)]
    omega

namespace FlipClockRTC

/-- Fields untouched by operations that only move the hour dial: everything
except `currentHourOnClock` and the hour command trace is preserved, and
the hour trace only grows by legal commands. -/
def HourDialFrame (s s' : ClockState) : Prop :=
  s'.currentMinuteOnClock = s.currentMinuteOnClock ∧
  s'.currentMode = s.currentMode ∧
  s'.settingHour = s.settingHour ∧
  s'.settingMinute = s.settingMinute ∧
  s'.lastButtonPressTime = s.lastButtonPressTime ∧
  s'.rtcHour = s.rtcHour ∧
  s'.rtcMinute = s.rtcMinute ∧
  s'.rtcWrites = s.rtcWrites ∧
  s'.minuteCmds = s.minuteCmds ∧
  s'.buttonEvents = s.buttonEvents ∧
  ∃ l, s'.hourCmds = s.hourCmds ++ l ∧ ∀ c ∈ l, hourCmdOK c

/-- Fields untouched by operations that only move the minute dial. -/
def MinuteDialFrame (s s' : ClockState) : Prop :=
  s'.currentHourOnClock = s.currentHourOnClock ∧
  s'.currentMode = s.currentMode ∧
  s'.settingHour = s.settingHour ∧
  s'.settingMinute = s.settingMinute ∧
  s'.lastButtonPressTime = s.lastButtonPressTime ∧
  s'.rtcHour = s.rtcHour ∧
  s'.rtcMinute = s.rtcMinute ∧
  s'.rtcWrites = s.rtcWrites ∧
  s'.hourCmds = s.hourCmds ∧
  s'.buttonEvents = s.buttonEvents ∧
  ∃ l, s'.minuteCmds = s.minuteCmds ++ l ∧ ∀ c ∈ l, minuteCmdOK c

theorem hourDialFrame_refl (s : ClockState) : HourDialFrame s s :=
  ⟨rfl, rfl, rfl, rfl, rfl, rfl, rfl, rfl, rfl, rfl, [], by simp, by simp⟩

theorem hourDialFrame_trans {s1 s2 s3 : ClockState}
    (h12 : HourDialFrame s1 s2) (h23 : HourDialFrame s2 s3) :
    HourDialFrame s1 s3 := by
  obtain ⟨a1, a2, a3, a4, a5, a6, a7, a8, a9, a10, l1, hl1, hm1⟩ := h12
  obtain ⟨b1, b2, b3, b4, b5, b6, b7, b8, b9, b10, l2, hl2, hm2⟩ := h23
  refine ⟨by rw [b1, a1], by rw [b2, a2], by rw [b3, a3], by rw [b4, a4],
    by rw [b5, a5], by rw [b6, a6], by rw [b7, a7], by rw [b8, a8],
    by rw [b9, a9], by rw [b10, a10], l1 ++ l2, ?_, ?_⟩
  · rw [hl2, hl1, List.append_assoc]
  · intro c hc
    rcases List.mem_append.1 hc with h | h
    · exact hm1 c h
    · exact hm2 c h

theorem minuteDialFrame_refl (s : ClockState) : MinuteDialFrame s s :=
  ⟨rfl, rfl, rfl, rfl, rfl, rfl, rfl, rfl, rfl, rfl, [], by simp, by simp⟩

theorem minuteDialFrame_trans {s1 s2 s3 : ClockState}
    (h12 : MinuteDialFrame s1 s2) (h23 : MinuteDialFrame s2 s3) :
    MinuteDialFrame s1 s3 := by
  obtain ⟨a1, a2, a3, a4, a5, a6, a7, a8, a9, a10, l1, hl1, hm1⟩ := h12
  obtain ⟨b1, b2, b3, b4, b5, b6, b7, b8, b9, b10, l2, hl2, hm2⟩ := h23
  refine ⟨by rw [b1, a1], by rw [b2, a2], by rw [b3, a3], by rw [b4, a4],
    by rw [b5, a5], by rw [b6, a6], by rw [b7, a7], by rw [b8, a8],
    by rw [b9, a9], by rw [b10, a10], l1 ++ l2, ?_, ?_⟩
  · rw [hl2, hl1, List.append_assoc]
  · intro c hc
    rcases List.mem_append.1 hc with h | h
    · exact hm1 c h
    · exact hm2 c h

theorem moveMinuteStep_frame {s s' : ClockState} {e e' : Env}
    (h : moveMinuteStep s e = some (s', e')) :
    s'.currentMinuteOnClock = (s.currentMinuteOnClock + 1).tmod 60 ∧
    MinuteDialFrame s s' := by
  obtain ⟨hs, -, -, -⟩ := moveMinuteStep_some h
  subst hs
  refine ⟨rfl, rfl, rfl, rfl, rfl, rfl, rfl, rfl, rfl, rfl, rfl,
    [SERVO_STOP_POSITION + SERVO_MOVE_OFFSET_MINUTE, SERVO_STOP_POSITION], rfl, ?_⟩
  intro c hc
  simp at hc
  rcases hc with h | h
  · exact Or.inr h
  · exact Or.inl h

theorem moveHourToNext_frame {s s' : ClockState} {e e' : Env}
    (h : moveHourToNext s e = some (s', e')) :
    s'.currentHourOnClock = (s.currentHourOnClock + 1).tmod 24 ∧
    HourDialFrame s s' := by
  obtain ⟨hs, -, -, -⟩ := moveHourToNext_some h
  subst hs
  refine ⟨rfl, rfl, rfl, rfl, rfl, rfl, rfl, rfl, rfl, rfl, rfl,
    [SERVO_STOP_POSITION + SERVO_MOVE_OFFSET_HOUR, SERVO_STOP_POSITION,
     SERVO_STOP_POSITION + SERVO_MOVE_OFFSET_HOUR, SERVO_STOP_POSITION], rfl, ?_⟩
  intro c hc
  simp at hc
  rcases hc with h | h | h | h
  · exact Or.inr h
  · exact Or.inl h
  · exact Or.inr h
  · exact Or.inl h

end FlipClockRTC

namespace FlipClockRTC

theorem syncHourLoop_some :
    ∀ (fuel : Nat) (target : Int) (s : ClockState) (e : Env)
      (s' : ClockState) (e' : Env),
      syncHourLoop fuel target s e = some (s', e') →
      s'.currentHourOnClock = target ∧ HourDialFrame s s' ∧
      e'.stepMin = e.stepMin ∧ e'.homeMin = e.homeMin ∧ e'.homeHour = e.homeHour := by
  intro fuel
  induction fuel with
  | zero =>
    intro target s e s' e' h
    unfold syncHourLoop at h
    by_cases hc : s.currentHourOnClock = target
    · simp [hc] at h
      obtain ⟨h1, h2⟩ := h
      subst h1; subst h2
      exact ⟨hc, hourDialFrame_refl s, rfl, rfl, rfl⟩
    · simp [hc] at h
  | succ fuel ih =>
    intro target s e s' e' h
    unfold syncHourLoop at h
    by_cases hc : s.currentHourOnClock = target
    · simp [hc] at h
      obtain ⟨h1, h2⟩ := h
      subst h1; subst h2
      exact ⟨hc, hourDialFrame_refl s, rfl, rfl, rfl⟩
    · simp [hc] at h
      cases hm : moveHourToNext s e with
      | none => rw [hm] at h; simp at h
      | some p =>
        obtain ⟨s1, e1⟩ := p
        rw [hm] at h
        dsimp only at h
        obtain ⟨-, hfr⟩ := moveHourToNext_frame hm
        obtain ⟨-, he1, he2, he3⟩ := moveHourToNext_some hm
        obtain ⟨g1, g2, g3, g4, g5⟩ := ih target s1 e1 s' e' h
        exact ⟨g1, hourDialFrame_trans hfr g2, by rw [g3, he3],
          by rw [g4, he1], by rw [g5, he2]⟩

theorem syncMinuteLoop_some :
    ∀ (fuel : Nat) (target : Int) (s : ClockState) (e : Env)
      (s' : ClockState) (e' : Env),
      syncMinuteLoop fuel target s e = some (s', e') →
      s'.currentMinuteOnClock = target ∧ MinuteDialFrame s s' ∧
      e'.stepHour = e.stepHour ∧ e'.homeMin = e.homeMin ∧ e'.homeHour = e.homeHour := by
  intro fuel
  induction fuel with
  | zero =>
    intro target s e s' e' h
    unfold syncMinuteLoop at h
    by_cases hc : s.currentMinuteOnClock = target
    · simp [hc] at h
      obtain ⟨h1, h2⟩ := h
      subst h1; subst h2
      exact ⟨hc, minuteDialFrame_refl s, rfl, rfl, rfl⟩
    · simp [hc] at h
  | succ fuel ih =>
    intro target s e s' e' h
    unfold syncMinuteLoop at h
    by_cases hc : s.currentMinuteOnClock = target
    · simp [hc] at h
      obtain ⟨h1, h2⟩ := h
      subst h1; subst h2
      exact ⟨hc, minuteDialFrame_refl s, rfl, rfl, rfl⟩
    · simp [hc] at h
      cases hm : moveMinuteStep s e with
      | none => rw [hm] at h; simp at h
      | some p =>
        obtain ⟨s1, e1⟩ := p
        rw [hm] at h
        dsimp only at h
        obtain ⟨-, hfr⟩ := moveMinuteStep_frame hm
        obtain ⟨-, he1, he2, he3⟩ := moveMinuteStep_some hm
        obtain ⟨g1, g2, g3, g4, g5⟩ := ih target s1 e1 s' e' h
        exact ⟨g1, minuteDialFrame_trans hfr g2, by rw [g3, he3],
          by rw [g4, he1], by rw [g5, he2]⟩

/-- If the reconciliation routine returns at all, both counters equal the
RTC reading, the RTC itself and the mode machine are untouched, and only
legal servo commands were issued. -/
theorem syncClockToRTC_some {fuelH fuelM : Nat} {s s' : ClockState} {e e' : Env}
    (h : syncClockToRTC fuelH fuelM s e = some (s', e')) :
    s'.currentHourOnClock = s.rtcHour ∧
    s'.currentMinuteOnClock = s.rtcMinute ∧
    s'.currentMode = s.currentMode ∧
    s'.settingHour = s.settingHour ∧
    s'.settingMinute = s.settingMinute ∧
    s'.lastButtonPressTime = s.lastButtonPressTime ∧
    s'.rtcHour = s.rtcHour ∧
    s'.rtcMinute = s.rtcMinute ∧
    s'.rtcWrites = s.rtcWrites ∧
    s'.buttonEvents = s.buttonEvents ∧
    (∃ l, s'.minuteCmds = s.minuteCmds ++ l ∧ ∀ c ∈ l, minuteCmdOK c) ∧
    (∃ l, s'.hourCmds = s.hourCmds ++ l ∧ ∀ c ∈ l, hourCmdOK c) ∧
    e'.homeMin = e.homeMin ∧ e'.homeHour = e.homeHour := by
  unfold syncClockToRTC at h
  dsimp only at h
  cases hh : syncHourLoop fuelH s.rtcHour s e with
  | none => rw [hh] at h; simp at h
  | some p =>
    obtain ⟨s1, e1⟩ := p
    rw [hh] at h
    dsimp only at h
    obtain ⟨g1, gfr, ge1, ge2, ge3⟩ := syncHourLoop_some fuelH s.rtcHour s e s1 e1 hh
    obtain ⟨m1, mfr, me1, me2, me3⟩ := syncMinuteLoop_some fuelM s.rtcMinute s1 e1 s' e' h
    obtain ⟨a1, a2, a3, a4, a5, a6, a7, a8, a9, a10, lh, hlh, hmh⟩ := gfr
    obtain ⟨b1, b2, b3, b4, b5, b6, b7, b8, b9, b10, lm, hlm, hmm⟩ := mfr
    refine ⟨by rw [b1, g1], m1, by rw [b2, a2], by rw [b3, a3],
      by rw [b4, a4], by rw [b5, a5], by rw [b6, a6], by rw [b7, a7],
      by rw [b8, a8], by rw [b10, a10], ⟨lm, by rw [hlm, a9], hmm⟩,
      ⟨lh, by rw [b9, hlh], hmh⟩, by rw [me2, ge2], by rw [me3, ge3]⟩

theorem syncHourLoop_canonical :
    ∀ (fuel : Nat) (k : Nat) (s : ClockState) (e : Env) (rest : List Bool) (target : Int),
      k ≤ fuel →
      hourSucc^[k] s.currentHourOnClock = target →
      e.stepHour = pressReleases (2 * k) ++ rest →
      ∃ s' e', syncHourLoop fuel target s e = some (s', e') ∧
        s'.currentHourOnClock = target ∧ HourDialFrame s s' ∧
        e'.stepMin = e.stepMin ∧ e'.homeMin = e.homeMin ∧ e'.homeHour = e.homeHour := by
  intro fuel
  induction fuel with
  | zero =>
    intro k s e rest target hk hit _hstream
    have hk0 : k = 0 := by omega
    subst hk0
    simp only [Function.iterate_zero, id] at hit
    refine ⟨s, e, ?_, hit, hourDialFrame_refl s, rfl, rfl, rfl⟩
    unfold syncHourLoop
    simp [hit]
  | succ fuel ih =>
    intro k s e rest target hk hit hstream
    by_cases hc : s.currentHourOnClock = target
    · refine ⟨s, e, ?_, hc, hourDialFrame_refl s, rfl, rfl, rfl⟩
      unfold syncHourLoop
      simp [hc]
    · have hk0 : k ≠ 0 := by
        intro h0
        subst h0
        simp only [Function.iterate_zero, id] at hit
        exact hc hit
      obtain ⟨k', rfl⟩ : ∃ k', k = k' + 1 := ⟨k - 1, by omega⟩
      have hsplit : pressReleases (2 * (k' + 1)) =
          LOW :: HIGH :: LOW :: HIGH :: pressReleases (2 * k') := by
        have : 2 * (k' + 1) = (2 * k') + 1 + 1 := by omega
        rw [this, pressReleases_succ, pressReleases_succ]
      have hmv := moveHourToNext_canonical s e (pressReleases (2 * k') ++ rest)
        (by rw [hstream, hsplit]; simp)
      set s1 : ClockState := { s with
        currentHourOnClock := (s.currentHourOnClock + 1).tmod 24,
        hourCmds := s.hourCmds ++
          [SERVO_STOP_POSITION + SERVO_MOVE_OFFSET_HOUR, SERVO_STOP_POSITION,
           SERVO_STOP_POSITION + SERVO_MOVE_OFFSET_HOUR, SERVO_STOP_POSITION] } with hs1
      have hit' : hourSucc^[k'] s1.currentHourOnClock = target := by
        rw [hs1]
        show hourSucc^[k'] (hourSucc s.currentHourOnClock) = target
        rw [← Function.iterate_succ_apply]
        exact hit
      obtain ⟨s', e', hrun, hfin, hfr, he1, he2, he3⟩ :=
        ih k' s1 { e with stepHour := pressReleases (2 * k') ++ rest }
          rest target (by omega) hit' rfl
      refine ⟨s', e', ?_, hfin, ?_, he1, he2, he3⟩
      · unfold syncHourLoop
        simp only [hc, if_false]
        rw [hmv]
        exact hrun
      · obtain ⟨-, hfr1⟩ := moveHourToNext_frame hmv
        exact hourDialFrame_trans hfr1 hfr

theorem syncMinuteLoop_canonical :
    ∀ (fuel : Nat) (k : Nat) (s : ClockState) (e : Env) (rest : List Bool) (target : Int),
      k ≤ fuel →
      minuteSucc^[k] s.currentMinuteOnClock = target →
      e.stepMin = pressReleases k ++ rest →
      ∃ s' e', syncMinuteLoop fuel target s e = some (s', e') ∧
        s'.currentMinuteOnClock = target ∧ MinuteDialFrame s s' ∧
        e'.stepHour = e.stepHour ∧ e'.homeMin = e.homeMin ∧ e'.homeHour = e.homeHour := by
  intro fuel
  induction fuel with
  | zero =>
    intro k s e rest target hk hit _hstream
    have hk0 : k = 0 := by omega
    subst hk0
    simp only [Function.iterate_zero, id] at hit
    refine ⟨s, e, ?_, hit, minuteDialFrame_refl s, rfl, rfl, rfl⟩
    unfold syncMinuteLoop
    simp [hit]
  | succ fuel ih =>
    intro k s e rest target hk hit hstream
    by_cases hc : s.currentMinuteOnClock = target
    · refine ⟨s, e, ?_, hc, minuteDialFrame_refl s, rfl, rfl, rfl⟩
      unfold syncMinuteLoop
      simp [hc]
    · have hk0 : k ≠ 0 := by
        intro h0
        subst h0
        simp only [Function.iterate_zero, id] at hit
        exact hc hit
      obtain ⟨k', rfl⟩ : ∃ k', k = k' + 1 := ⟨k - 1, by omega⟩
      have hmv := moveMinuteStep_canonical s e (pressReleases k' ++ rest)
        (by rw [hstream, pressReleases_succ]; simp)
      set s1 : ClockState := { s with
        currentMinuteOnClock := (s.currentMinuteOnClock + 1).tmod 60,
        minuteCmds := s.minuteCmds ++
          [SERVO_STOP_POSITION + SERVO_MOVE_OFFSET_MINUTE, SERVO_STOP_POSITION] } with hs1
      have hit' : minuteSucc^[k'] s1.currentMinuteOnClock = target := by
        rw [hs1]
        show minuteSucc^[k'] (minuteSucc s.currentMinuteOnClock) = target
        rw [← Function.iterate_succ_apply]
        exact hit
      obtain ⟨s', e', hrun, hfin, hfr, he1, he2, he3⟩ :=
        ih k' s1 { e with stepMin := pressReleases k' ++ rest }
          rest target (by omega) hit' rfl
      refine ⟨s', e', ?_, hfin, ?_, he1, he2, he3⟩
      · unfold syncMinuteLoop
        simp only [hc, if_false]
        rw [hmv]
        exact hrun
      · obtain ⟨-, hfr1⟩ := moveMinuteStep_frame hmv
        exact minuteDialFrame_trans hfr1 hfr

/-- Reconciliation succeeds with at most 24 hour advances and at most 60
minute steps: given any tracked positions the dial can hold and any
in-range RTC reading, `syncClockToRTC` run with loop fuel 24 and 60
returns, and both counters then equal the RTC reading. -/
theorem syncClockToRTC_ok (s : ClockState) (e : Env) (restH restM : List Bool)
    (hh : s.currentHourOnClock = -1 ∨
      (0 ≤ s.currentHourOnClock ∧ s.currentHourOnClock < 24))
    (hm : s.currentMinuteOnClock = -1 ∨
      (0 ≤ s.currentMinuteOnClock ∧ s.currentMinuteOnClock < 60))
    (hth0 : 0 ≤ s.rtcHour) (hth1 : s.rtcHour < 24)
    (htm0 : 0 ≤ s.rtcMinute) (htm1 : s.rtcMinute < 60)
    (heH : e.stepHour = pressReleases 48 ++ restH)
    (heM : e.stepMin = pressReleases 60 ++ restM) :
    ∃ s' e', syncClockToRTC 24 60 s e = some (s', e') ∧
      s'.currentHourOnClock = s.rtcHour ∧
      s'.currentMinuteOnClock = s.rtcMinute := by
  obtain ⟨kh, hkh, hreach⟩ := exists_hour_steps s.currentHourOnClock s.rtcHour hh hth0 hth1
  have hsplitH : e.stepHour =
      pressReleases (2 * kh) ++ (pressReleases (48 - 2 * kh) ++ restH) := by
    rw [heH, ← List.append_assoc, ← pressReleases_add]
    have : 2 * kh + (48 - 2 * kh) = 48 := by omega
    rw [this]
  obtain ⟨s1, e1, hrun1, hfin1, hfr1, hm1, hm2, hm3⟩ :=
    syncHourLoop_canonical 24 kh s e (pressReleases (48 - 2 * kh) ++ restH)
      s.rtcHour hkh hreach hsplitH
  obtain ⟨a1, a2, a3, a4, a5, a6, a7, a8, a9, a10, lh, hlh, hmh⟩ := hfr1
  obtain ⟨km, hkm, hreachM⟩ := exists_minute_steps s1.currentMinuteOnClock s.rtcMinute
    (by rw [a1]; exact hm) htm0 htm1
  have hsplitM : e1.stepMin =
      pressReleases km ++ (pressReleases (60 - km) ++ restM) := by
    rw [hm1, heM, ← List.append_assoc, ← pressReleases_add]
    have : km + (60 - km) = 60 := by omega
    rw [this]
  obtain ⟨s', e', hrun2, hfin2, hfr2, -, -, -⟩ :=
    syncMinuteLoop_canonical 60 km s1 e1 (pressReleases (60 - km) ++ restM)
      s.rtcMinute hkm hreachM hsplitM
  refine ⟨s', e', ?_, ?_, hfin2⟩
  · unfold syncClockToRTC
    dsimp only
    rw [hrun1]
    dsimp only
    exact hrun2
  · obtain ⟨b1, -⟩ := hfr2
    rw [b1, hfin1]

theorem goHomeMinuteLoop_canonical :
    ∀ (k : Nat) (rest : List Bool) (s : ClockState),
      goHomeMinuteLoop (List.replicate k HIGH ++ LOW :: rest) s =
        some ({ s with minuteCmds := s.minuteCmds ++
          List.replicate k (SERVO_STOP_POSITION + SERVO_MOVE_OFFSET_MINUTE) }, rest) := by
  intro k
  induction k with
  | zero =>
    intro rest s
    simp [goHomeMinuteLoop, HIGH, LOW]
  | succ k ih =>
    intro rest s
    have ih' := ih rest (writeMinuteServo (SERVO_STOP_POSITION + SERVO_MOVE_OFFSET_MINUTE) s)
    rw [List.replicate_succ, List.cons_append]
    unfold goHomeMinuteLoop
    rw [if_pos rfl, ih']
    simp [writeMinuteServo, List.replicate_succ]

theorem goHomeHourLoop_canonical :
    ∀ (k : Nat) (rest : List Bool) (s : ClockState),
      goHomeHourLoop (List.replicate k HIGH ++ LOW :: rest) s =
        some ({ s with hourCmds := s.hourCmds ++
          List.replicate k (SERVO_STOP_POSITION + SERVO_MOVE_OFFSET_HOUR) }, rest) := by
  intro k
  induction k with
  | zero =>
    intro rest s
    simp [goHomeHourLoop, HIGH, LOW]
  | succ k ih =>
    intro rest s
    have ih' := ih rest (writeHourServo (SERVO_STOP_POSITION + SERVO_MOVE_OFFSET_HOUR) s)
    rw [List.replicate_succ, List.cons_append]
    unfold goHomeHourLoop
    rw [if_pos rfl, ih']
    simp [writeHourServo, List.replicate_succ]

/-- `goHomeMinute` on a switch trace that reads `HIGH` (released) `k` times
and then `LOW` (pressed): the servo is commanded forward `k` times and
then stopped, and the minute counter is set to `0`, whatever it held. -/
theorem goHomeMinute_canonical (s : ClockState) (e : Env) (k : Nat) (rest : List Bool)
    (h : e.homeMin = List.replicate k HIGH ++ LOW :: rest) :
    goHomeMinute s e = some
      ({ s with
          currentMinuteOnClock := 0,
          minuteCmds := (s.minuteCmds ++
            List.replicate k (SERVO_STOP_POSITION + SERVO_MOVE_OFFSET_MINUTE)) ++
            [SERVO_STOP_POSITION] },
        { e with homeMin := rest }) := by
  unfold goHomeMinute
  rw [h, goHomeMinuteLoop_canonical]
  simp [writeMinuteServo]

/-- `goHomeHour` on a switch trace that reads `HIGH` `k` times and then
`LOW`: the servo is commanded forward `k` times and then stopped, and the
hour counter is set to `0`, whatever it held. -/
theorem goHomeHour_canonical (s : ClockState) (e : Env) (k : Nat) (rest : List Bool)
    (h : e.homeHour = List.replicate k HIGH ++ LOW :: rest) :
    goHomeHour s e = some
      ({ s with
          currentHourOnClock := 0,
          hourCmds := (s.hourCmds ++
            List.replicate k (SERVO_STOP_POSITION + SERVO_MOVE_OFFSET_HOUR)) ++
            [SERVO_STOP_POSITION] },
        { e with homeHour := rest }) := by
  unfold goHomeHour
  rw [h, goHomeHourLoop_canonical]
  simp [writeHourServo]

theorem goHomeMinuteLoop_some :
    ∀ (l : List Bool) (s s1 : ClockState) (rs : List Bool),
      goHomeMinuteLoop l s = some (s1, rs) →
      ∃ k, s1 = { s with minuteCmds := (s.minuteCmds ++
        List.replicate k (SERVO_STOP_POSITION + SERVO_MOVE_OFFSET_MINUTE)) } := by
  intro l
  induction l with
  | nil => intro s s1 rs h; simp [goHomeMinuteLoop] at h
  | cons r l ih =>
    intro s s1 rs h
    unfold goHomeMinuteLoop at h
    by_cases hr : r = HIGH
    · rw [if_pos hr] at h
      obtain ⟨k, hk⟩ := ih _ _ _ h
      refine ⟨k + 1, ?_⟩
      rw [hk]
      simp [writeMinuteServo, List.replicate_succ]
    · rw [if_neg hr] at h
      simp at h
      obtain ⟨h1, -⟩ := h
      exact ⟨0, by rw [← h1]; simp⟩

theorem goHomeHourLoop_some :
    ∀ (l : List Bool) (s s1 : ClockState) (rs : List Bool),
      goHomeHourLoop l s = some (s1, rs) →
      ∃ k, s1 = { s with hourCmds := (s.hourCmds ++
        List.replicate k (SERVO_STOP_POSITION + SERVO_MOVE_OFFSET_HOUR)) } := by
  intro l
  induction l with
  | nil => intro s s1 rs h; simp [goHomeHourLoop] at h
  | cons r l ih =>
    intro s s1 rs h
    unfold goHomeHourLoop at h
    by_cases hr : r = HIGH
    · rw [if_pos hr] at h
      obtain ⟨k, hk⟩ := ih _ _ _ h
      refine ⟨k + 1, ?_⟩
      rw [hk]
      simp [writeHourServo, List.replicate_succ]
    · rw [if_neg hr] at h
      simp at h
      obtain ⟨h1, -⟩ := h
      exact ⟨0, by rw [← h1]; simp⟩

theorem goHomeMinute_some {s s' : ClockState} {e e' : Env}
    (h : goHomeMinute s e = some (s', e')) :
    s'.currentMinuteOnClock = 0 ∧
    (∃ k, s' = { s with
      currentMinuteOnClock := 0,
      minuteCmds := (s.minuteCmds ++
        List.replicate k (SERVO_STOP_POSITION + SERVO_MOVE_OFFSET_MINUTE)) ++
        [SERVO_STOP_POSITION] }) := by
  unfold goHomeMinute at h
  cases hl : goHomeMinuteLoop e.homeMin s with
  | none => rw [hl] at h; simp at h
  | some p =>
    obtain ⟨s1, rs⟩ := p
    rw [hl] at h
    dsimp only at h
    simp at h
    obtain ⟨h1, -⟩ := h
    obtain ⟨k, hk⟩ := goHomeMinuteLoop_some e.homeMin s s1 rs hl
    subst hk
    refine ⟨by rw [← h1], k, ?_⟩
    rw [← h1]
    simp [writeMinuteServo]

theorem goHomeHour_some {s s' : ClockState} {e e' : Env}
    (h : goHomeHour s e = some (s', e')) :
    s'.currentHourOnClock = 0 ∧
    (∃ k, s' = { s with
      currentHourOnClock := 0,
      hourCmds := (s.hourCmds ++
        List.replicate k (SERVO_STOP_POSITION + SERVO_MOVE_OFFSET_HOUR)) ++
        [SERVO_STOP_POSITION] }) := by
  unfold goHomeHour at h
  cases hl : goHomeHourLoop e.homeHour s with
  | none => rw [hl] at h; simp at h
  | some p =>
    obtain ⟨s1, rs⟩ := p
    rw [hl] at h
    dsimp only at h
    simp at h
    obtain ⟨h1, -⟩ := h
    obtain ⟨k, hk⟩ := goHomeHourLoop_some e.homeHour s s1 rs hl
    subst hk
    refine ⟨by rw [← h1], k, ?_⟩
    rw [← h1]
    simp [writeHourServo]

end FlipClockRTC

namespace FlipClockRTC

/-- `N` successive invocations of `moveMinuteStep`. -/
def iterMinuteSteps : Nat → ClockState → Env → Option (ClockState × Env)
  | 0, s, e => some (s, e)
  | n + 1, s, e =>
    match moveMinuteStep s e with
    | none => none
    | some (s1, e1) => iterMinuteSteps n s1 e1

/-- `N` successive invocations of `moveHourToNext`. -/
def iterHourAdvances : Nat → ClockState → Env → Option (ClockState × Env)
  | 0, s, e => some (s, e)
  | n + 1, s, e =>
    match moveHourToNext s e with
    | none => none
    | some (s1, e1) => iterHourAdvances n s1 e1

theorem iterMinuteSteps_canonical :
    ∀ (n : Nat) (s : ClockState) (e : Env) (rest : List Bool),
      e.stepMin = pressReleases n ++ rest →
      ∃ s' e', iterMinuteSteps n s e = some (s', e') ∧
        s'.currentMinuteOnClock = minuteSucc^[n] s.currentMinuteOnClock ∧
        MinuteDialFrame s s' := by
  intro n
  induction n with
  | zero =>
    intro s e rest _h
    exact ⟨s, e, rfl, rfl, minuteDialFrame_refl s⟩
  | succ n ih =>
    intro s e rest hstream
    have hmv := moveMinuteStep_canonical s e (pressReleases n ++ rest)
      (by rw [hstream, pressReleases_succ]; simp)
    set s1 : ClockState := { s with
      currentMinuteOnClock := (s.currentMinuteOnClock + 1).tmod 60,
      minuteCmds := s.minuteCmds ++
        [SERVO_STOP_POSITION + SERVO_MOVE_OFFSET_MINUTE, SERVO_STOP_POSITION] } with hs1
    obtain ⟨s', e', hrun, hval, hfr⟩ :=
      ih s1 { e with stepMin := pressReleases n ++ rest } rest rfl
    refine ⟨s', e', ?_, ?_, ?_⟩
    · unfold iterMinuteSteps
      rw [hmv]
      exact hrun
    · rw [hval, hs1]
      show minuteSucc^[n] (minuteSucc s.currentMinuteOnClock) = _
      rw [← Function.iterate_succ_apply]
    · obtain ⟨-, hfr1⟩ := moveMinuteStep_frame hmv
      exact minuteDialFrame_trans hfr1 hfr

theorem iterHourAdvances_canonical :
    ∀ (n : Nat) (s : ClockState) (e : Env) (rest : List Bool),
      e.stepHour = pressReleases (2 * n) ++ rest →
      ∃ s' e', iterHourAdvances n s e = some (s', e') ∧
        s'.currentHourOnClock = hourSucc^[n] s.currentHourOnClock ∧
        HourDialFrame s s' := by
  intro n
  induction n with
  | zero =>
    intro s e rest _h
    exact ⟨s, e, rfl, rfl, hourDialFrame_refl s⟩
  | succ n ih =>
    intro s e rest hstream
    have hsplit : pressReleases (2 * (n + 1)) =
        LOW :: HIGH :: LOW :: HIGH :: pressReleases (2 * n) := by
      have : 2 * (n + 1) = (2 * n) + 1 + 1 := by omega
      rw [this, pressReleases_succ, pressReleases_succ]
    have hmv := moveHourToNext_canonical s e (pressReleases (2 * n) ++ rest)
      (by rw [hstream, hsplit]; simp)
    set s1 : ClockState := { s with
      currentHourOnClock := (s.currentHourOnClock + 1).tmod 24,
      hourCmds := s.hourCmds ++
        [SERVO_STOP_POSITION + SERVO_MOVE_OFFSET_HOUR, SERVO_STOP_POSITION,
         SERVO_STOP_POSITION + SERVO_MOVE_OFFSET_HOUR, SERVO_STOP_POSITION] } with hs1
    obtain ⟨s', e', hrun, hval, hfr⟩ :=
      ih s1 { e with stepHour := pressReleases (2 * n) ++ rest } rest rfl
    refine ⟨s', e', ?_, ?_, ?_⟩
    · unfold iterHourAdvances
      rw [hmv]
      exact hrun
    · rw [hval, hs1]
      show hourSucc^[n] (hourSucc s.currentHourOnClock) = _
      rw [← Function.iterate_succ_apply]
    · obtain ⟨-, hfr1⟩ := moveHourToNext_frame hmv
      exact hourDialFrame_trans hfr1 hfr

end FlipClockRTC

theorem minuteSucc_range (x : Int) (h : -1 ≤ x) :
    0 ≤ (x + 1).tmod 60 ∧ (x + 1).tmod 60 < 60 := by
  have h0 : 0 ≤ x + 1 := by omega
  rw [Int.tmod_eq_emod h0 (by norm_num)]
  omega

theorem hourSucc_range (x : Int) (h : -1 ≤ x) :
    0 ≤ (x + 1).tmod 24 ∧ (x + 1).tmod 24 < 24 := by
  have h0 : 0 ≤ x + 1 := by omega
  rw [Int.tmod_eq_emod h0 (by norm_num)]
  omega

namespace FlipClockRTC2

theorem moveMinuteStep_events {s s' : ClockState} {e e' : Env}
    (h : moveMinuteStep s e = some (s', e')) :
    s'.buttonEvents = s.buttonEvents ∧
    s'.lastButtonPressTime = s.lastButtonPressTime := by
  unfold moveMinuteStep at h
  cases hw1 : waitUntilRead LOW e.stepMin with
  | none => rw [hw1] at h; simp at h
  | some rs1 =>
    simp only [hw1] at h
    cases hw2 : waitUntilRead HIGH rs1 with
    | none => simp only [hw2] at h; simp at h
    | some rs2 =>
      simp only [hw2] at h
      simp [writeMinuteServo] at h
      obtain ⟨h1, -⟩ := h
      subst h1
      simp [writeMinuteServo]

theorem performHourSingleStep_events {s s' : ClockState} {e e' : Env}
    (h : performHourSingleStep s e = some (s', e')) :
    s'.buttonEvents = s.buttonEvents ∧
    s'.lastButtonPressTime = s.lastButtonPressTime ∧
    s'.currentHourOnClock = s.currentHourOnClock := by
  unfold performHourSingleStep at h
  cases hw1 : waitUntilRead LOW e.stepHour with
  | none => rw [hw1] at h; simp at h
  | some rs1 =>
    simp only [hw1] at h
    cases hw2 : waitUntilRead HIGH rs1 with
    | none => simp only [hw2] at h; simp at h
    | some rs2 =>
      simp only [hw2] at h
      simp [writeHourServo] at h
      obtain ⟨h1, -⟩ := h
      subst h1
      simp [writeHourServo]

theorem moveHourToNext_events {s s' : ClockState} {e e' : Env}
    (h : moveHourToNext s e = some (s', e')) :
    s'.buttonEvents = s.buttonEvents ∧
    s'.lastButtonPressTime = s.lastButtonPressTime := by
  unfold moveHourToNext at h
  cases h1 : performHourSingleStep s e with
  | none => rw [h1] at h; simp at h
  | some p1 =>
    obtain ⟨s1, e1⟩ := p1
    simp only [h1] at h
    cases h2 : performHourSingleStep s1 e1 with
    | none => simp only [h2] at h; simp at h
    | some p2 =>
      obtain ⟨s2, e2⟩ := p2
      simp only [h2] at h
      simp at h
      obtain ⟨hs, -⟩ := h
      obtain ⟨a1, a2, -⟩ := performHourSingleStep_events h1
      obtain ⟨b1, b2, -⟩ := performHourSingleStep_events h2
      subst hs
      exact ⟨by rw [b1, a1], by rw [b2, a2]⟩

theorem syncHourLoop_events :
    ∀ (fuel : Nat) (target : Int) (s : ClockState) (e : Env)
      (s' : ClockState) (e' : Env),
      syncHourLoop fuel target s e = some (s', e') →
      s'.buttonEvents = s.buttonEvents ∧
      s'.lastButtonPressTime = s.lastButtonPressTime := by
  intro fuel
  induction fuel with
  | zero =>
    intro target s e s' e' h
    unfold syncHourLoop at h
    by_cases hc : s.currentHourOnClock = target
    · simp [hc] at h
      obtain ⟨h1, -⟩ := h
      subst h1
      exact ⟨rfl, rfl⟩
    · simp [hc] at h
  | succ fuel ih =>
    intro target s e s' e' h
    unfold syncHourLoop at h
    by_cases hc : s.currentHourOnClock = target
    · simp [hc] at h
      obtain ⟨h1, -⟩ := h
      subst h1
      exact ⟨rfl, rfl⟩
    · simp [hc] at h
      cases hm : moveHourToNext s e with
      | none => rw [hm] at h; simp at h
      | some p =>
        obtain ⟨s1, e1⟩ := p
        rw [hm] at h
        dsimp only at h
        obtain ⟨a1, a2⟩ := moveHourToNext_events hm
        obtain ⟨b1, b2⟩ := ih target s1 e1 s' e' h
        exact ⟨by rw [b1, a1], by rw [b2, a2]⟩

theorem syncMinuteLoop_events :
    ∀ (fuel : Nat) (target : Int) (s : ClockState) (e : Env)
      (s' : ClockState) (e' : Env),
      syncMinuteLoop fuel target s e = some (s', e') →
      s'.buttonEvents = s.buttonEvents ∧
      s'.lastButtonPressTime = s.lastButtonPressTime := by
  intro fuel
  induction fuel with
  | zero =>
    intro target s e s' e' h
    unfold syncMinuteLoop at h
    by_cases hc : s.currentMinuteOnClock = target
    · simp [hc] at h
      obtain ⟨h1, -⟩ := h
      subst h1
      exact ⟨rfl, rfl⟩
    · simp [hc] at h
  | succ fuel ih =>
    intro target s e s' e' h
    unfold syncMinuteLoop at h
    by_cases hc : s.currentMinuteOnClock = target
    · simp [hc] at h
      obtain ⟨h1, -⟩ := h
      subst h1
      exact ⟨rfl, rfl⟩
    · simp [hc] at h
      cases hm : moveMinuteStep s e with
      | none => rw [hm] at h; simp at h
      | some p =>
        obtain ⟨s1, e1⟩ := p
        rw [hm] at h
        dsimp only at h
        obtain ⟨a1, a2⟩ := moveMinuteStep_events hm
        obtain ⟨b1, b2⟩ := ih target s1 e1 s' e' h
        exact ⟨by rw [b1, a1], by rw [b2, a2]⟩

theorem syncClockToRTC_events {fuelH fuelM : Nat} {s s' : ClockState} {e e' : Env}
    (h : syncClockToRTC fuelH fuelM s e = some (s', e')) :
    s'.buttonEvents = s.buttonEvents ∧
    s'.lastButtonPressTime = s.lastButtonPressTime := by
  unfold syncClockToRTC at h
  dsimp only at h
  cases hh : syncHourLoop fuelH s.rtcHour s e with
  | none => rw [hh] at h; simp at h
  | some p =>
    obtain ⟨s1, e1⟩ := p
    rw [hh] at h
    dsimp only at h
    obtain ⟨a1, a2⟩ := syncHourLoop_events fuelH s.rtcHour s e s1 e1 hh
    obtain ⟨b1, b2⟩ := syncMinuteLoop_events fuelM s.rtcMinute s1 e1 s' e' h
    exact ⟨by rw [b1, a1], by rw [b2, a2]⟩

end FlipClockRTC2

namespace FlipClockRTC

/-- Complete case analysis of one invocation of the primary
`handleButtons`: either the debounce guard blocks, or exactly one of the
`else if` branches runs (or none), with the state change of each branch
made explicit. -/
theorem handleButtons_cases (now : Nat) (b : Buttons) (fuelH fuelM : Nat)
    (s s' : ClockState) (e e' : Env)
    (h : handleButtons now b fuelH fuelM s e = some (s', e')) :
    (sub32 now s.lastButtonPressTime < debounceDelay ∧ s' = s ∧ e' = e) ∨
    (¬ sub32 now s.lastButtonPressTime < debounceDelay ∧
      s.currentMode = ClockMode.NORMAL_MODE ∧ b.modeCancel = true ∧
      s' = { s with
        currentMode := ClockMode.SETTING_MODE,
        settingHour := s.rtcHour,
        settingMinute := s.rtcMinute,
        lastButtonPressTime := now,
        buttonEvents := s.buttonEvents + 1 } ∧ e' = e) ∨
    (¬ sub32 now s.lastButtonPressTime < debounceDelay ∧
      s.currentMode = ClockMode.NORMAL_MODE ∧ b.modeCancel = false ∧
      s' = s ∧ e' = e) ∨
    (¬ sub32 now s.lastButtonPressTime < debounceDelay ∧
      s.currentMode = ClockMode.SETTING_MODE ∧ b.hourInc = true ∧
      moveHourToNext { s with
        settingHour := (s.settingHour + 1).tmod 24,
        lastButtonPressTime := now,
        buttonEvents := s.buttonEvents + 1 } e = some (s', e')) ∨
    (¬ sub32 now s.lastButtonPressTime < debounceDelay ∧
      s.currentMode = ClockMode.SETTING_MODE ∧ b.hourInc = false ∧
      b.minuteInc = true ∧
      moveMinuteStep { s with
        settingMinute := (s.settingMinute + 1).tmod 60,
        lastButtonPressTime := now,
        buttonEvents := s.buttonEvents + 1 } e = some (s', e')) ∨
    (¬ sub32 now s.lastButtonPressTime < debounceDelay ∧
      s.currentMode = ClockMode.SETTING_MODE ∧ b.hourInc = false ∧
      b.minuteInc = false ∧ b.save = true ∧
      s' = { s with
        rtcHour := s.settingHour,
        rtcMinute := s.settingMinute,
        rtcWrites := s.rtcWrites + 1,
        currentMode := ClockMode.NORMAL_MODE,
        lastButtonPressTime := now,
        buttonEvents := s.buttonEvents + 1 } ∧ e' = e) ∨
    (¬ sub32 now s.lastButtonPressTime < debounceDelay ∧
      s.currentMode = ClockMode.SETTING_MODE ∧ b.hourInc = false ∧
      b.minuteInc = false ∧ b.save = false ∧ b.modeCancel = true ∧
      syncClockToRTC fuelH fuelM { s with
        currentMode := ClockMode.NORMAL_MODE,
        lastButtonPressTime := now,
        buttonEvents := s.buttonEvents + 1 } e = some (s', e')) ∨
    (¬ sub32 now s.lastButtonPressTime < debounceDelay ∧
      s.currentMode = ClockMode.SETTING_MODE ∧ b.hourInc = false ∧
      b.minuteInc = false ∧ b.save = false ∧ b.modeCancel = false ∧
      s' = s ∧ e' = e) := by
  unfold handleButtons at h
  by_cases hg : sub32 now s.lastButtonPressTime < debounceDelay
  · rw [if_pos hg] at h
    simp at h
    exact Or.inl ⟨hg, h.1.symm, h.2.symm⟩
  · rw [if_neg hg] at h
    by_cases hmode : s.currentMode = ClockMode.NORMAL_MODE
    · rw [hmode] at h
      dsimp only at h
      by_cases hb : b.modeCancel
      · rw [if_pos hb] at h
        simp [recordPress] at h
        refine Or.inr (Or.inl ⟨hg, hmode, hb, ?_, h.2.symm⟩)
        rw [← h.1]
      · rw [if_neg hb] at h
        simp at h
        exact Or.inr (Or.inr (Or.inl ⟨hg, hmode, by simpa using hb, h.1.symm, h.2.symm⟩))
    · have hmode2 : s.currentMode = ClockMode.SETTING_MODE := by
        rcases hsm : s.currentMode with _ | _
        · exact absurd hsm hmode
        · rfl
      rw [hmode2] at h
      dsimp only at h
      by_cases hbh : b.hourInc
      · rw [if_pos hbh] at h
        refine Or.inr (Or.inr (Or.inr (Or.inl ⟨hg, hmode2, hbh, ?_⟩)))
        simpa [recordPress] using h
      · rw [if_neg hbh] at h
        by_cases hbm : b.minuteInc
        · rw [if_pos hbm] at h
          refine Or.inr (Or.inr (Or.inr (Or.inr (Or.inl
            ⟨hg, hmode2, by simpa using hbh, hbm, ?_⟩))))
          simpa [recordPress] using h
        · rw [if_neg hbm] at h
          by_cases hbs : b.save
          · rw [if_pos hbs] at h
            simp [recordPress, rtcAdjust] at h
            refine Or.inr (Or.inr (Or.inr (Or.inr (Or.inr (Or.inl
              ⟨hg, hmode2, by simpa using hbh, by simpa using hbm, hbs, ?_, h.2.symm⟩)))))
            rw [← h.1]
          · rw [if_neg hbs] at h
            by_cases hbc : b.modeCancel
            · rw [if_pos hbc] at h
              refine Or.inr (Or.inr (Or.inr (Or.inr (Or.inr (Or.inr (Or.inl
                ⟨hg, hmode2, by simpa using hbh, by simpa using hbm,
                 by simpa using hbs, hbc, ?_⟩))))))
              simpa [recordPress] using h
            · rw [if_neg hbc] at h
              simp at h
              exact Or.inr (Or.inr (Or.inr (Or.inr (Or.inr (Or.inr (Or.inr
                ⟨hg, hmode2, by simpa using hbh, by simpa using hbm,
                 by simpa using hbs, by simpa using hbc, h.1.symm, h.2.symm⟩))))))

/-- The shared debounce guard: within `debounceDelay` of the last recorded
press, `handleButtons` does nothing. -/
theorem handleButtons_guard (now : Nat) (b : Buttons) (fuelH fuelM : Nat)
    (s : ClockState) (e : Env)
    (h : sub32 now s.lastButtonPressTime < debounceDelay) :
    handleButtons now b fuelH fuelM s e = some (s, e) := by
  unfold handleButtons
  rw [if_pos h]

end FlipClockRTC

namespace FlipClockRTC2

/-- The shared debounce guard of the second sketch's `handleButtons`. -/
theorem handleButtons2_guard (now : Nat) (b : Buttons) (fuelH fuelM : Nat)
    (s : ClockState) (e : Env)
    (h : sub32 now s.lastButtonPressTime < debounceDelay) :
    handleButtons now b fuelH fuelM s e = some (s, e) := by
  unfold handleButtons
  rw [if_pos h]

end FlipClockRTC2

/-- Sample unhomed state (both counters `-1`) for concrete witnesses. -/
def wState : ClockState :=
  ⟨-1, -1, ClockMode.NORMAL_MODE, 0, 0, 0, 5, 30, 0, [], [], 0⟩

/-- Sample in-range state (minute 59, hour 23) for concrete witnesses. -/
def wStateLate : ClockState :=
  ⟨59, 23, ClockMode.NORMAL_MODE, 0, 0, 0, 5, 30, 0, [], [], 0⟩

/-- Environment with enough step-switch cycles for a full reconciliation. -/
def wEnvSync : Env := ⟨[], pressReleases 60, [], pressReleases 48⟩

/-- Environment with step-switch cycles for one minute step and one hour
advance. -/
def wEnvStep : Env := ⟨[], [LOW, HIGH], [], [LOW, HIGH, LOW, HIGH]⟩

/-- Environment with two press/release minute cycles and four hour cycles. -/
def wEnvTwo : Env := ⟨[], pressReleases 2, [], pressReleases 4⟩

/-- Environment whose home switches read released 3 (minute) and 2 (hour)
times before pressing. -/
def wEnvHome : Env :=
  ⟨List.replicate 3 HIGH ++ [LOW], [], List.replicate 2 HIGH ++ [LOW], []⟩

/-- C1: target reconciliation terminates and establishes its goal.  For
every tracked hour in `{-1, 0..23}` and minute in `{-1, 0..59}` and every
in-range RTC reading, `syncClockToRTC` — whose two loops invoke only
single-step advances — returns when its loops are allowed at most 24 hour
advances and 60 minute steps (one full revolution each), and on return
`currentHourOnClock` equals the reported hour and `currentMinuteOnClock`
the reported minute. -/
theorem spec_C1_target_reconciliation (s : ClockState) (e : Env)
    (restH restM : List Bool)
    (hh : s.currentHourOnClock = -1 ∨
      (0 ≤ s.currentHourOnClock ∧ s.currentHourOnClock < 24))
    (hm : s.currentMinuteOnClock = -1 ∨
      (0 ≤ s.currentMinuteOnClock ∧ s.currentMinuteOnClock < 60))
    (hth0 : 0 ≤ s.rtcHour) (hth1 : s.rtcHour < 24)
    (htm0 : 0 ≤ s.rtcMinute) (htm1 : s.rtcMinute < 60)
    (heH : e.stepHour = pressReleases 48 ++ restH)
    (heM : e.stepMin = pressReleases 60 ++ restM) :
    ∃ s' e', FlipClockRTC.syncClockToRTC 24 60 s e = some (s', e') ∧
      s'.currentHourOnClock = s.rtcHour ∧
      s'.currentMinuteOnClock = s.rtcMinute :=
  FlipClockRTC.syncClockToRTC_ok s e restH restM hh hm hth0 hth1 htm0 htm1 heH heM

theorem spec_C1_witness :
    ∃ s' e', FlipClockRTC.syncClockToRTC 24 60 wState wEnvSync = some (s', e') ∧
      s'.currentHourOnClock = wState.rtcHour ∧
      s'.currentMinuteOnClock = wState.rtcMinute :=
  spec_C1_target_reconciliation wState wEnvSync [] []
    (Or.inl rfl) (Or.inl rfl) (by decide) (by decide) (by decide) (by decide)
    (by simp [wEnvSync]) (by simp [wEnvSync])

/-- C2: starting from any value the counters can hold, after `N`
invocations of `moveMinuteStep` the minute counter equals
`(initial + N) % 60`, and after `N` invocations of `moveHourToNext` the
hour counter equals `(initial + N) % 24` (C truncating `%`, which agrees
with mathematical mod on this domain). -/
theorem spec_C2_modular_counters :
    ∀ (N : Nat) (s : ClockState) (e : Env) (restM restH : List Bool),
      -1 ≤ s.currentMinuteOnClock → s.currentMinuteOnClock < 60 →
      -1 ≤ s.currentHourOnClock → s.currentHourOnClock < 24 →
      e.stepMin = pressReleases N ++ restM →
      e.stepHour = pressReleases (2 * N) ++ restH →
      (∃ s' e', FlipClockRTC.iterMinuteSteps N s e = some (s', e') ∧
        s'.currentMinuteOnClock = (s.currentMinuteOnClock + N).tmod 60) ∧
      (∃ s' e', FlipClockRTC.iterHourAdvances N s e = some (s', e') ∧
        s'.currentHourOnClock = (s.currentHourOnClock + N).tmod 24) := by
  intro N s e restM restH hm1 hm2 hh1 hh2 heM heH
  constructor
  · obtain ⟨s', e', hrun, hval, -⟩ :=
      FlipClockRTC.iterMinuteSteps_canonical N s e restM heM
    refine ⟨s', e', hrun, ?_⟩
    rw [hval, minuteSucc_iterate s.currentMinuteOnClock hm1 hm2 N]
  · obtain ⟨s', e', hrun, hval, -⟩ :=
      FlipClockRTC.iterHourAdvances_canonical N s e restH heH
    refine ⟨s', e', hrun, ?_⟩
    rw [hval, hourSucc_iterate s.currentHourOnClock hh1 hh2 N]

theorem spec_C2_witness :
    (∃ s' e', FlipClockRTC.iterMinuteSteps 2 wStateLate wEnvTwo = some (s', e') ∧
      s'.currentMinuteOnClock = ((59 : Int) + (2 : Nat)).tmod 60) ∧
    (∃ s' e', FlipClockRTC.iterHourAdvances 2 wStateLate wEnvTwo = some (s', e') ∧
      s'.currentHourOnClock = ((23 : Int) + (2 : Nat)).tmod 24) :=
  spec_C2_modular_counters 2 wStateLate wEnvTwo [] []
    (by decide) (by decide) (by decide) (by decide)
    (by simp [wEnvTwo]) (by simp [wEnvTwo])

/-- C4: a logical hour advance issues exactly two physical single steps —
the command trace grows by exactly the two press/release command pairs —
and only after both does it increment the hour counter once modulo 24;
a single physical step never touches either counter. -/
theorem spec_C4_two_steps_per_hour (s : ClockState) (e : Env) (rest : List Bool)
    (h : e.stepHour = LOW :: HIGH :: LOW :: HIGH :: rest) :
    FlipClockRTC.moveHourToNext s e = some
      ({ s with
          currentHourOnClock := (s.currentHourOnClock + 1).tmod 24,
          hourCmds := s.hourCmds ++
            [FlipClockRTC.SERVO_STOP_POSITION + FlipClockRTC.SERVO_MOVE_OFFSET_HOUR,
             FlipClockRTC.SERVO_STOP_POSITION,
             FlipClockRTC.SERVO_STOP_POSITION + FlipClockRTC.SERVO_MOVE_OFFSET_HOUR,
             FlipClockRTC.SERVO_STOP_POSITION] },
        { e with stepHour := rest }) ∧
    (∀ s1 e1, FlipClockRTC.performHourSingleStep s e = some (s1, e1) →
      s1.currentHourOnClock = s.currentHourOnClock ∧
      s1.currentMinuteOnClock = s.currentMinuteOnClock ∧
      s1.hourCmds = s.hourCmds ++
        [FlipClockRTC.SERVO_STOP_POSITION + FlipClockRTC.SERVO_MOVE_OFFSET_HOUR,
         FlipClockRTC.SERVO_STOP_POSITION]) := by
  constructor
  · exact FlipClockRTC.moveHourToNext_canonical s e rest h
  · intro s1 e1 h1
    obtain ⟨hs, -⟩ := FlipClockRTC.performHourSingleStep_some h1
    subst hs
    exact ⟨rfl, rfl, rfl⟩

theorem spec_C4_witness :
    FlipClockRTC.moveHourToNext wState wEnvStep = some
      ({ wState with
          currentHourOnClock := ((-1 : Int) + 1).tmod 24,
          hourCmds := ([] : List Int) ++
            [FlipClockRTC.SERVO_STOP_POSITION + FlipClockRTC.SERVO_MOVE_OFFSET_HOUR,
             FlipClockRTC.SERVO_STOP_POSITION,
             FlipClockRTC.SERVO_STOP_POSITION + FlipClockRTC.SERVO_MOVE_OFFSET_HOUR,
             FlipClockRTC.SERVO_STOP_POSITION] },
        { wEnvStep with stepHour := [] }) :=
  (spec_C4_two_steps_per_hour wState wEnvStep [] (by simp [wEnvStep])).1

/-- C5: for every initial counter value (including `-1`), homing a dial
drives its motor forward while the home switch reads released (`HIGH`),
stops with the stop pulse once it reads pressed (`LOW`), and sets that
dial's counter to exactly `0`; after homing both dials both counters are
`0`. -/
theorem spec_C5_homing (s : ClockState) (e : Env) (kH kM : Nat)
    (restH restM : List Bool)
    (hH : e.homeHour = List.replicate kH HIGH ++ LOW :: restH)
    (hM : e.homeMin = List.replicate kM HIGH ++ LOW :: restM) :
    ∃ s1 e1 s2 e2,
      FlipClockRTC.goHomeHour s e = some (s1, e1) ∧
      s1.currentHourOnClock = 0 ∧
      s1.currentMinuteOnClock = s.currentMinuteOnClock ∧
      s1.hourCmds = (s.hourCmds ++ List.replicate kH
        (FlipClockRTC.SERVO_STOP_POSITION + FlipClockRTC.SERVO_MOVE_OFFSET_HOUR)) ++
        [FlipClockRTC.SERVO_STOP_POSITION] ∧
      FlipClockRTC.goHomeMinute s1 e1 = some (s2, e2) ∧
      s2.currentMinuteOnClock = 0 ∧
      s2.currentHourOnClock = 0 ∧
      s2.minuteCmds = (s.minuteCmds ++ List.replicate kM
        (FlipClockRTC.SERVO_STOP_POSITION + FlipClockRTC.SERVO_MOVE_OFFSET_MINUTE)) ++
        [FlipClockRTC.SERVO_STOP_POSITION] := by
  have h1 := FlipClockRTC.goHomeHour_canonical s e kH restH hH
  have h2 := FlipClockRTC.goHomeMinute_canonical
    ({ s with
        currentHourOnClock := 0,
        hourCmds := (s.hourCmds ++ List.replicate kH
          (FlipClockRTC.SERVO_STOP_POSITION + FlipClockRTC.SERVO_MOVE_OFFSET_HOUR)) ++
          [FlipClockRTC.SERVO_STOP_POSITION] })
    ({ e with homeHour := restH }) kM restM (by simpa using hM)
  exact ⟨_, _, _, _, h1, rfl, rfl, rfl, h2, rfl, rfl, rfl⟩

theorem spec_C5_witness :
    ∃ s1 e1 s2 e2,
      FlipClockRTC.goHomeHour wState wEnvHome = some (s1, e1) ∧
      s1.currentHourOnClock = 0 ∧
      s1.currentMinuteOnClock = wState.currentMinuteOnClock ∧
      s1.hourCmds = (wState.hourCmds ++ List.replicate 2
        (FlipClockRTC.SERVO_STOP_POSITION + FlipClockRTC.SERVO_MOVE_OFFSET_HOUR)) ++
        [FlipClockRTC.SERVO_STOP_POSITION] ∧
      FlipClockRTC.goHomeMinute s1 e1 = some (s2, e2) ∧
      s2.currentMinuteOnClock = 0 ∧
      s2.currentHourOnClock = 0 ∧
      s2.minuteCmds = (wState.minuteCmds ++ List.replicate 3
        (FlipClockRTC.SERVO_STOP_POSITION + FlipClockRTC.SERVO_MOVE_OFFSET_MINUTE)) ++
        [FlipClockRTC.SERVO_STOP_POSITION] :=
  spec_C5_homing wState wEnvHome 2 3 [] [] (by simp [wEnvHome]) (by simp [wEnvHome])

/-- C10: a single-step advance taken while a dial is unhomed (counter
`-1`) sets that counter to `0` — the same value the homing routine
produces — because `(-1 + 1) % 60 = 0` and `(-1 + 1) % 24 = 0`; the
"position unknown" marker is erased by one advance. -/
theorem spec_C10_unhomed_step (s : ClockState) (e : Env)
    (restM restH : List Bool)
    (hm : s.currentMinuteOnClock = -1) (hh : s.currentHourOnClock = -1)
    (heM : e.stepMin = LOW :: HIGH :: restM)
    (heH : e.stepHour = LOW :: HIGH :: LOW :: HIGH :: restH) :
    (∃ s' e', FlipClockRTC.moveMinuteStep s e = some (s', e') ∧
      s'.currentMinuteOnClock = 0) ∧
    (∃ s' e', FlipClockRTC.moveHourToNext s e = some (s', e') ∧
      s'.currentHourOnClock = 0) ∧
    (∀ s' e', FlipClockRTC.goHomeMinute s e = some (s', e') →
      s'.currentMinuteOnClock = 0) ∧
    (∀ s' e', FlipClockRTC.goHomeHour s e = some (s', e') →
      s'.currentHourOnClock = 0) := by
  refine ⟨⟨_, _, FlipClockRTC.moveMinuteStep_canonical s e restM heM, ?_⟩,
    ⟨_, _, FlipClockRTC.moveHourToNext_canonical s e restH heH, ?_⟩, ?_, ?_⟩
  · show (s.currentMinuteOnClock + 1).tmod 60 = 0
    rw [hm]
    decide
  · show (s.currentHourOnClock + 1).tmod 24 = 0
    rw [hh]
    decide
  · intro s' e' h
    exact (FlipClockRTC.goHomeMinute_some h).1
  · intro s' e' h
    exact (FlipClockRTC.goHomeHour_some h).1

theorem spec_C10_witness :
    (∃ s' e', FlipClockRTC.moveMinuteStep wState wEnvStep = some (s', e') ∧
      s'.currentMinuteOnClock = 0) ∧
    (∃ s' e', FlipClockRTC.moveHourToNext wState wEnvStep = some (s', e') ∧
      s'.currentHourOnClock = 0) ∧
    (∀ s' e', FlipClockRTC.goHomeMinute wState wEnvStep = some (s', e') →
      s'.currentMinuteOnClock = 0) ∧
    (∀ s' e', FlipClockRTC.goHomeHour wState wEnvStep = some (s', e') →
      s'.currentHourOnClock = 0) :=
  spec_C10_unhomed_step wState wEnvStep [] [] rfl rfl
    (by simp [wEnvStep]) (by simp [wEnvStep])

namespace FlipClockRTC

theorem CmdInv_moveMinuteStep {s s' : ClockState} {e e' : Env}
    (h : moveMinuteStep s e = some (s', e')) (hinv : CmdInv s) : CmdInv s' := by
  obtain ⟨hs, -⟩ := moveMinuteStep_some h
  subst hs
  refine ⟨?_, hinv.2⟩
  intro c hc
  rcases List.mem_append.1 hc with hc | hc
  · exact hinv.1 c hc
  · simp at hc
    rcases hc with hc | hc
    · exact Or.inr hc
    · exact Or.inl hc

theorem CmdInv_performHourSingleStep {s s' : ClockState} {e e' : Env}
    (h : performHourSingleStep s e = some (s', e')) (hinv : CmdInv s) : CmdInv s' := by
  obtain ⟨hs, -⟩ := performHourSingleStep_some h
  subst hs
  refine ⟨hinv.1, ?_⟩
  intro c hc
  rcases List.mem_append.1 hc with hc | hc
  · exact hinv.2 c hc
  · simp at hc
    rcases hc with hc | hc
    · exact Or.inr hc
    · exact Or.inl hc

theorem CmdInv_moveHourToNext {s s' : ClockState} {e e' : Env}
    (h : moveHourToNext s e = some (s', e')) (hinv : CmdInv s) : CmdInv s' := by
  obtain ⟨hs, -⟩ := moveHourToNext_some h
  subst hs
  refine ⟨hinv.1, ?_⟩
  intro c hc
  rcases List.mem_append.1 hc with hc | hc
  · exact hinv.2 c hc
  · simp at hc
    rcases hc with hc | hc | hc | hc
    · exact Or.inr hc
    · exact Or.inl hc
    · exact Or.inr hc
    · exact Or.inl hc

theorem CmdInv_goHomeMinute {s s' : ClockState} {e e' : Env}
    (h : goHomeMinute s e = some (s', e')) (hinv : CmdInv s) : CmdInv s' := by
  obtain ⟨-, k, hs⟩ := goHomeMinute_some h
  subst hs
  refine ⟨?_, hinv.2⟩
  intro c hc
  rcases List.mem_append.1 hc with hc | hc
  · rcases List.mem_append.1 hc with hc | hc
    · exact hinv.1 c hc
    · rw [List.eq_of_mem_replicate hc]
      exact Or.inr rfl
  · simp at hc
    exact Or.inl hc

theorem CmdInv_goHomeHour {s s' : ClockState} {e e' : Env}
    (h : goHomeHour s e = some (s', e')) (hinv : CmdInv s) : CmdInv s' := by
  obtain ⟨-, k, hs⟩ := goHomeHour_some h
  subst hs
  refine ⟨hinv.1, ?_⟩
  intro c hc
  rcases List.mem_append.1 hc with hc | hc
  · rcases List.mem_append.1 hc with hc | hc
    · exact hinv.2 c hc
    · rw [List.eq_of_mem_replicate hc]
      exact Or.inr rfl
  · simp at hc
    exact Or.inl hc

theorem CmdInv_syncClockToRTC {fuelH fuelM : Nat} {s s' : ClockState} {e e' : Env}
    (h : syncClockToRTC fuelH fuelM s e = some (s', e')) (hinv : CmdInv s) : CmdInv s' := by
  obtain ⟨-, -, -, -, -, -, -, -, -, -, ⟨lm, hlm, hmm⟩, ⟨lh, hlh, hmh⟩, -, -⟩ :=
    syncClockToRTC_some h
  constructor
  · rw [hlm]
    intro c hc
    rcases List.mem_append.1 hc with hc | hc
    · exact hinv.1 c hc
    · exact hmm c hc
  · rw [hlh]
    intro c hc
    rcases List.mem_append.1 hc with hc | hc
    · exact hinv.2 c hc
    · exact hmh c hc

theorem CmdInv_handleButtons {now : Nat} {b : Buttons} {fuelH fuelM : Nat}
    {s s' : ClockState} {e e' : Env}
    (h : handleButtons now b fuelH fuelM s e = some (s', e')) (hinv : CmdInv s) :
    CmdInv s' := by
  rcases handleButtons_cases now b fuelH fuelM s s' e e' h with
    ⟨-, hs, -⟩ | ⟨-, -, -, hs, -⟩ | ⟨-, -, -, hs, -⟩ | ⟨-, -, -, hmv⟩ |
    ⟨-, -, -, -, hmv⟩ | ⟨-, -, -, -, -, hs, -⟩ | ⟨-, -, -, -, -, -, hmv⟩ |
    ⟨-, -, -, -, -, -, hs, -⟩
  · subst hs; exact hinv
  · subst hs; exact ⟨hinv.1, hinv.2⟩
  · subst hs; exact hinv
  · exact CmdInv_moveHourToNext hmv ⟨hinv.1, hinv.2⟩
  · exact CmdInv_moveMinuteStep hmv ⟨hinv.1, hinv.2⟩
  · subst hs; exact ⟨hinv.1, hinv.2⟩
  · exact CmdInv_syncClockToRTC hmv ⟨hinv.1, hinv.2⟩
  · subst hs; exact hinv

end FlipClockRTC

namespace FlipClockRTC

theorem PosInv_moveMinuteStep {s s' : ClockState} {e e' : Env}
    (h : moveMinuteStep s e = some (s', e')) (hinv : PosInv s) :
    PosInv s' ∧ 0 ≤ s'.currentMinuteOnClock := by
  obtain ⟨hs, -⟩ := moveMinuteStep_some h
  subst hs
  have hm : -1 ≤ s.currentMinuteOnClock := by rcases hinv.1 with h' | h' <;> omega
  have hr := minuteSucc_range s.currentMinuteOnClock hm
  exact ⟨⟨Or.inr hr, hinv.2⟩, hr.1⟩

theorem PosInv_moveHourToNext {s s' : ClockState} {e e' : Env}
    (h : moveHourToNext s e = some (s', e')) (hinv : PosInv s) :
    PosInv s' ∧ 0 ≤ s'.currentHourOnClock := by
  obtain ⟨hs, -⟩ := moveHourToNext_some h
  subst hs
  have hh : -1 ≤ s.currentHourOnClock := by rcases hinv.2 with h' | h' <;> omega
  have hr := hourSucc_range s.currentHourOnClock hh
  exact ⟨⟨hinv.1, Or.inr hr⟩, hr.1⟩

theorem PosInv_syncClockToRTC {fuelH fuelM : Nat} {s s' : ClockState} {e e' : Env}
    (h : syncClockToRTC fuelH fuelM s e = some (s', e'))
    (hth0 : 0 ≤ s.rtcHour) (hth1 : s.rtcHour < 24)
    (htm0 : 0 ≤ s.rtcMinute) (htm1 : s.rtcMinute < 60) :
    PosInv s' ∧ 0 ≤ s'.currentMinuteOnClock ∧ 0 ≤ s'.currentHourOnClock := by
  obtain ⟨h1, h2, -⟩ := syncClockToRTC_some h
  refine ⟨⟨Or.inr ⟨by omega, by omega⟩, Or.inr ⟨by omega, by omega⟩⟩, by omega, by omega⟩

theorem PosInv_handleButtons {now : Nat} {b : Buttons} {fuelH fuelM : Nat}
    {s s' : ClockState} {e e' : Env}
    (h : handleButtons now b fuelH fuelM s e = some (s', e')) (hinv : PosInv s)
    (hth0 : 0 ≤ s.rtcHour) (hth1 : s.rtcHour < 24)
    (htm0 : 0 ≤ s.rtcMinute) (htm1 : s.rtcMinute < 60) :
    PosInv s' := by
  rcases handleButtons_cases now b fuelH fuelM s s' e e' h with
    ⟨-, hs, -⟩ | ⟨-, -, -, hs, -⟩ | ⟨-, -, -, hs, -⟩ | ⟨-, -, -, hmv⟩ |
    ⟨-, -, -, -, hmv⟩ | ⟨-, -, -, -, -, hs, -⟩ | ⟨-, -, -, -, -, -, hmv⟩ |
    ⟨-, -, -, -, -, -, hs, -⟩
  · subst hs; exact hinv
  · subst hs; exact ⟨hinv.1, hinv.2⟩
  · subst hs; exact hinv
  · exact (PosInv_moveHourToNext hmv ⟨hinv.1, hinv.2⟩).1
  · exact (PosInv_moveMinuteStep hmv ⟨hinv.1, hinv.2⟩).1
  · subst hs; exact ⟨hinv.1, hinv.2⟩
  · exact (PosInv_syncClockToRTC hmv hth0 hth1 htm0 htm1).1
  · subst hs; exact hinv

end FlipClockRTC

/-- C3: the counters are always `-1` (unhomed) or in range, and this is
preserved by homing, single-step advance, hour advance, reconciliation
and button handling; moreover no operation ever produces `-1`: homing
sets the touched counter to `0` and every advance leaves its counter
non-negative, so `-1` can only occur before the dial was first homed. -/
theorem spec_C3_position_invariant :
    ∀ (now : Nat) (b : Buttons) (fuelH fuelM : Nat) (s s' : ClockState)
      (e e' : Env),
      FlipClockRTC.PosInv s →
      0 ≤ s.rtcHour → s.rtcHour < 24 → 0 ≤ s.rtcMinute → s.rtcMinute < 60 →
      (FlipClockRTC.goHomeMinute s e = some (s', e') →
        FlipClockRTC.PosInv s' ∧ s'.currentMinuteOnClock = 0) ∧
      (FlipClockRTC.goHomeHour s e = some (s', e') →
        FlipClockRTC.PosInv s' ∧ s'.currentHourOnClock = 0) ∧
      (FlipClockRTC.moveMinuteStep s e = some (s', e') →
        FlipClockRTC.PosInv s' ∧ 0 ≤ s'.currentMinuteOnClock) ∧
      (FlipClockRTC.moveHourToNext s e = some (s', e') →
        FlipClockRTC.PosInv s' ∧ 0 ≤ s'.currentHourOnClock) ∧
      (FlipClockRTC.syncClockToRTC fuelH fuelM s e = some (s', e') →
        FlipClockRTC.PosInv s' ∧ 0 ≤ s'.currentMinuteOnClock ∧
        0 ≤ s'.currentHourOnClock) ∧
      (FlipClockRTC.handleButtons now b fuelH fuelM s e = some (s', e') →
        FlipClockRTC.PosInv s') := by
  intro now b fuelH fuelM s s' e e' hinv hth0 hth1 htm0 htm1
  refine ⟨?_, ?_, ?_, ?_, ?_, ?_⟩
  · intro h
    obtain ⟨h0, k, hs⟩ := FlipClockRTC.goHomeMinute_some h
    refine ⟨?_, h0⟩
    subst hs
    exact ⟨Or.inr ⟨le_refl 0, by norm_num⟩, hinv.2⟩
  · intro h
    obtain ⟨h0, k, hs⟩ := FlipClockRTC.goHomeHour_some h
    refine ⟨?_, h0⟩
    subst hs
    exact ⟨hinv.1, Or.inr ⟨le_refl 0, by norm_num⟩⟩
  · exact fun h => FlipClockRTC.PosInv_moveMinuteStep h hinv
  · exact fun h => FlipClockRTC.PosInv_moveHourToNext h hinv
  · exact fun h => FlipClockRTC.PosInv_syncClockToRTC h hth0 hth1 htm0 htm1
  · exact fun h => FlipClockRTC.PosInv_handleButtons h hinv hth0 hth1 htm0 htm1

theorem spec_C3_witness :
    FlipClockRTC.PosInv wState ∧
    ((FlipClockRTC.moveMinuteStep wState wEnvStep = some
        (({ wState with
            currentMinuteOnClock := 0,
            minuteCmds := [FlipClockRTC.SERVO_STOP_POSITION +
              FlipClockRTC.SERVO_MOVE_OFFSET_MINUTE,
              FlipClockRTC.SERVO_STOP_POSITION] }),
          { wEnvStep with stepMin := [] }) →
      FlipClockRTC.PosInv ({ wState with
            currentMinuteOnClock := 0,
            minuteCmds := [FlipClockRTC.SERVO_STOP_POSITION +
              FlipClockRTC.SERVO_MOVE_OFFSET_MINUTE,
              FlipClockRTC.SERVO_STOP_POSITION] }) ∧
      0 ≤ ({ wState with
            currentMinuteOnClock := (0 : Int),
            minuteCmds := [FlipClockRTC.SERVO_STOP_POSITION +
              FlipClockRTC.SERVO_MOVE_OFFSET_MINUTE,
              FlipClockRTC.SERVO_STOP_POSITION] } : ClockState).currentMinuteOnClock)) :=
  ⟨⟨Or.inl rfl, Or.inl rfl⟩,
    (spec_C3_position_invariant 0 ⟨false, false, false, false⟩ 0 0 wState
      _ wEnvStep _ ⟨Or.inl rfl, Or.inl rfl⟩ (by decide) (by decide) (by decide)
      (by decide)).2.2.1⟩

/-- C9: every value ever written to a servo is the stop pulse or the stop
pulse plus that dial's fixed forward offset — never the opposite
direction — and the counters change only by `+1` modulo their range:
this command invariant is preserved by every operation, the step
operations update their counter by exactly `(c + 1) % range`, and a value
encoding the opposite rotation cannot satisfy the command invariant. -/
theorem spec_C9_forward_only :
    ∀ (now : Nat) (b : Buttons) (fuelH fuelM : Nat) (s s' : ClockState)
      (e e' : Env),
      FlipClockRTC.CmdInv s →
      (FlipClockRTC.moveMinuteStep s e = some (s', e') →
        FlipClockRTC.CmdInv s' ∧
        s'.currentMinuteOnClock = (s.currentMinuteOnClock + 1).tmod 60 ∧
        s'.currentHourOnClock = s.currentHourOnClock) ∧
      (FlipClockRTC.moveHourToNext s e = some (s', e') →
        FlipClockRTC.CmdInv s' ∧
        s'.currentHourOnClock = (s.currentHourOnClock + 1).tmod 24 ∧
        s'.currentMinuteOnClock = s.currentMinuteOnClock) ∧
      (FlipClockRTC.performHourSingleStep s e = some (s', e') →
        FlipClockRTC.CmdInv s' ∧
        s'.currentHourOnClock = s.currentHourOnClock ∧
        s'.currentMinuteOnClock = s.currentMinuteOnClock) ∧
      (FlipClockRTC.goHomeMinute s e = some (s', e') → FlipClockRTC.CmdInv s') ∧
      (FlipClockRTC.goHomeHour s e = some (s', e') → FlipClockRTC.CmdInv s') ∧
      (FlipClockRTC.syncClockToRTC fuelH fuelM s e = some (s', e') →
        FlipClockRTC.CmdInv s') ∧
      (FlipClockRTC.handleButtons now b fuelH fuelM s e = some (s', e') →
        FlipClockRTC.CmdInv s') ∧
      (∀ c, FlipClockRTC.minuteCmdOK c →
        c ≠ FlipClockRTC.SERVO_STOP_POSITION - FlipClockRTC.SERVO_MOVE_OFFSET_MINUTE) ∧
      (∀ c, FlipClockRTC.hourCmdOK c →
        c ≠ FlipClockRTC.SERVO_STOP_POSITION - FlipClockRTC.SERVO_MOVE_OFFSET_HOUR) := by
  intro now b fuelH fuelM s s' e e' hinv
  refine ⟨?_, ?_, ?_,
    fun h => FlipClockRTC.CmdInv_goHomeMinute h hinv,
    fun h => FlipClockRTC.CmdInv_goHomeHour h hinv,
    fun h => FlipClockRTC.CmdInv_syncClockToRTC h hinv,
    fun h => FlipClockRTC.CmdInv_handleButtons h hinv, ?_, ?_⟩
  · intro h
    obtain ⟨hs, -⟩ := FlipClockRTC.moveMinuteStep_some h
    exact ⟨FlipClockRTC.CmdInv_moveMinuteStep h hinv, by rw [hs], by rw [hs]⟩
  · intro h
    obtain ⟨hs, -⟩ := FlipClockRTC.moveHourToNext_some h
    exact ⟨FlipClockRTC.CmdInv_moveHourToNext h hinv, by rw [hs], by rw [hs]⟩
  · intro h
    obtain ⟨hs, -⟩ := FlipClockRTC.performHourSingleStep_some h
    exact ⟨FlipClockRTC.CmdInv_performHourSingleStep h hinv, by rw [hs], by rw [hs]⟩
  · intro c hc
    rcases hc with hc | hc <;> subst hc <;> decide
  · intro c hc
    rcases hc with hc | hc <;> subst hc <;> decide

theorem spec_C9_witness :
    FlipClockRTC.CmdInv wState ∧
    (∀ c, FlipClockRTC.minuteCmdOK c →
      c ≠ FlipClockRTC.SERVO_STOP_POSITION - FlipClockRTC.SERVO_MOVE_OFFSET_MINUTE) :=
  ⟨⟨by simp [wState], by simp [wState]⟩,
    (spec_C9_forward_only 0 ⟨false, false, false, false⟩ 0 0 wState wState
      wEnvStep wEnvStep (by simp [FlipClockRTC.CmdInv, wState])).2.2.2.2.2.2.2.1⟩

/-- Sample state in `SETTING_MODE` (scratch time 05:30, debounce timer 0). -/
def wSetting : ClockState :=
  ⟨0, 0, ClockMode.SETTING_MODE, 5, 30, 0, 5, 30, 0, [], [], 0⟩

/-- The literal reading of the C6 sentence "the time source is written if
and only if the save button is pressed", over invocations of the primary
`handleButtons` in `SETTING_MODE`. -/
def settingWritesIffSave : Prop :=
  ∀ (now : Nat) (b : Buttons) (fuelH fuelM : Nat) (s s' : ClockState) (e e' : Env),
    s.currentMode = ClockMode.SETTING_MODE →
    FlipClockRTC.handleButtons now b fuelH fuelM s e = some (s', e') →
    (s'.rtcWrites ≠ s.rtcWrites ↔ b.save = true)

/-- C6 counterexample: with the save button pressed during the debounce
cooldown (here `millis() = 0` right after a press at time 0), the handler
returns without writing the RTC, so "written iff save pressed" is false. -/
theorem spec_C6_counterexample : ¬ settingWritesIffSave := by
  intro hcl
  have h := hcl 0 ⟨false, false, false, true⟩ 0 0 wSetting wSetting wEnvStep wEnvStep
    rfl (FlipClockRTC.handleButtons_guard 0 ⟨false, false, false, true⟩ 0 0 wSetting
      wEnvStep (by decide))
  simp at h

/-- C6 (amended): in `SETTING_MODE`, the RTC is written exactly when the
save branch fires — save pressed, the debounce cooldown expired, and
neither increment button simultaneously pressed (they have priority in
the `else if` chain); the write stores the scratch hour and minute.  When
save is not pressed (hour+, minute+, cancel, or nothing) the RTC's stored
time and write count are unchanged, and the increment branches touch only
their scratch variable, the debounce bookkeeping and their own dial. -/
theorem spec_C6_amended :
    ∀ (now : Nat) (b : Buttons) (fuelH fuelM : Nat) (s s' : ClockState)
      (e e' : Env),
      s.currentMode = ClockMode.SETTING_MODE →
      FlipClockRTC.handleButtons now b fuelH fuelM s e = some (s', e') →
      (s'.rtcWrites ≠ s.rtcWrites ↔
        (¬ sub32 now s.lastButtonPressTime < FlipClockRTC.debounceDelay ∧
         b.hourInc = false ∧ b.minuteInc = false ∧ b.save = true)) ∧
      (s'.rtcWrites ≠ s.rtcWrites →
        s'.rtcHour = s.settingHour ∧ s'.rtcMinute = s.settingMinute ∧
        s'.rtcWrites = s.rtcWrites + 1) ∧
      (b.save = false →
        s'.rtcHour = s.rtcHour ∧ s'.rtcMinute = s.rtcMinute ∧
        s'.rtcWrites = s.rtcWrites) ∧
      (¬ sub32 now s.lastButtonPressTime < FlipClockRTC.debounceDelay →
        b.hourInc = true →
        s'.rtcWrites = s.rtcWrites ∧ s'.rtcHour = s.rtcHour ∧
        s'.rtcMinute = s.rtcMinute ∧
        s'.currentMode = ClockMode.SETTING_MODE ∧
        s'.settingMinute = s.settingMinute ∧
        s'.settingHour = (s.settingHour + 1).tmod 24 ∧
        s'.currentMinuteOnClock = s.currentMinuteOnClock) ∧
      (¬ sub32 now s.lastButtonPressTime < FlipClockRTC.debounceDelay →
        b.hourInc = false → b.minuteInc = true →
        s'.rtcWrites = s.rtcWrites ∧ s'.rtcHour = s.rtcHour ∧
        s'.rtcMinute = s.rtcMinute ∧
        s'.currentMode = ClockMode.SETTING_MODE ∧
        s'.settingHour = s.settingHour ∧
        s'.settingMinute = (s.settingMinute + 1).tmod 60 ∧
        s'.currentHourOnClock = s.currentHourOnClock) := by
  intro now b fuelH fuelM s s' e e' hmode h
  rcases FlipClockRTC.handleButtons_cases now b fuelH fuelM s s' e e' h with
    ⟨hg, hs, -⟩ | ⟨-, hm2, -, -, -⟩ | ⟨-, hm2, -, -, -⟩ | ⟨hg, -, hbh, hmv⟩ |
    ⟨hg, -, hbh, hbm, hmv⟩ | ⟨hg, -, hbh, hbm, hbs, hs, -⟩ |
    ⟨hg, -, hbh, hbm, hbs, hbc, hmv⟩ | ⟨hg, -, hbh, hbm, hbs, hbc, hs, -⟩
  · subst hs
    refine ⟨?_, ?_, fun _ => ⟨rfl, rfl, rfl⟩, fun hg2 _ => absurd hg hg2,
      fun hg2 _ _ => absurd hg hg2⟩
    · simp only [ne_eq, not_true_eq_false]
      constructor
      · intro hfalse
        exact hfalse.elim
      · rintro ⟨hg2, -⟩
        exact absurd hg hg2
    · intro hfalse
      exact absurd rfl hfalse
  · rw [hmode] at hm2
    cases hm2
  · rw [hmode] at hm2
    cases hm2
  · obtain ⟨-, hfr⟩ := FlipClockRTC.moveHourToNext_frame hmv
    obtain ⟨f1, f2, f3, f4, f5, f6, f7, f8, f9, f10, -⟩ := hfr
    refine ⟨?_, ?_, ?_, ?_, ?_⟩
    · rw [f8]
      simp only [ne_eq, not_true_eq_false]
      constructor
      · intro hfalse
        exact hfalse.elim
      · rintro ⟨-, hbh2, -⟩
        rw [hbh] at hbh2
        cases hbh2
    · intro hne
      rw [f8] at hne
      exact absurd rfl hne
    · intro _
      exact ⟨f6, f7, f8⟩
    · intro _ _
      exact ⟨f8, f6, f7, by rw [f2, hmode], f4, f3, f1⟩
    · intro _ hbh2 _
      rw [hbh] at hbh2
      cases hbh2
  · obtain ⟨-, hfr⟩ := FlipClockRTC.moveMinuteStep_frame hmv
    obtain ⟨f1, f2, f3, f4, f5, f6, f7, f8, f9, f10, -⟩ := hfr
    refine ⟨?_, ?_, ?_, ?_, ?_⟩
    · rw [f8]
      simp only [ne_eq, not_true_eq_false]
      constructor
      · intro hfalse
        exact hfalse.elim
      · rintro ⟨-, -, hbm2, -⟩
        rw [hbm] at hbm2
        cases hbm2
    · intro hne
      rw [f8] at hne
      exact absurd rfl hne
    · intro _
      exact ⟨f6, f7, f8⟩
    · intro _ hbh2
      rw [hbh] at hbh2
      cases hbh2
    · intro _ _ _
      exact ⟨f8, f6, f7, by rw [f2, hmode], f3, f4, f1⟩
  · subst hs
    refine ⟨?_, fun _ => ⟨rfl, rfl, rfl⟩, ?_, ?_, ?_⟩
    · constructor
      · intro _
        exact ⟨hg, hbh, hbm, hbs⟩
      · intro _
        simp
    · intro hbs2
      rw [hbs] at hbs2
      cases hbs2
    · intro _ hbh2
      rw [hbh] at hbh2
      cases hbh2
    · intro _ _ hbm2
      rw [hbm] at hbm2
      cases hbm2
  · obtain ⟨-, -, -, -, -, -, f6, f7, f8, -⟩ := FlipClockRTC.syncClockToRTC_some hmv
    refine ⟨?_, ?_, fun _ => ⟨f6, f7, f8⟩, ?_, ?_⟩
    · rw [f8]
      simp only [ne_eq, not_true_eq_false]
      constructor
      · intro hfalse
        exact hfalse.elim
      · rintro ⟨-, -, -, hbs2⟩
        rw [hbs] at hbs2
        cases hbs2
    · intro hne
      rw [f8] at hne
      exact absurd rfl hne
    · intro _ hbh2
      rw [hbh] at hbh2
      cases hbh2
    · intro _ _ hbm2
      rw [hbm] at hbm2
      cases hbm2
  · subst hs
    refine ⟨?_, ?_, fun _ => ⟨rfl, rfl, rfl⟩, ?_, ?_⟩
    · simp only [ne_eq, not_true_eq_false]
      constructor
      · intro hfalse
        exact hfalse.elim
      · rintro ⟨-, -, -, hbs2⟩
        rw [hbs] at hbs2
        cases hbs2
    · intro hfalse
      exact absurd rfl hfalse
    · intro _ hbh2
      rw [hbh] at hbh2
      cases hbh2
    · intro _ _ hbm2
      rw [hbm] at hbm2
      cases hbm2

/-- The state after the save branch runs from `wSetting` at `millis = 1000`. -/
def wSettingSaved : ClockState :=
  ⟨0, 0, ClockMode.NORMAL_MODE, 5, 30, 1000, 5, 30, 1, [], [], 1⟩

theorem spec_C6_witness :
    FlipClockRTC.handleButtons 1000 ⟨false, false, false, true⟩ 0 0 wSetting wEnvStep =
      some (wSettingSaved, wEnvStep) ∧
    (wSettingSaved.rtcWrites ≠ wSetting.rtcWrites ↔
      (¬ sub32 1000 wSetting.lastButtonPressTime < FlipClockRTC.debounceDelay ∧
       ((⟨false, false, false, true⟩ : Buttons).hourInc = false) ∧
       ((⟨false, false, false, true⟩ : Buttons).minuteInc = false) ∧
       ((⟨false, false, false, true⟩ : Buttons).save = true))) :=
  ⟨by decide,
   (spec_C6_amended 1000 ⟨false, false, false, true⟩ 0 0 wSetting wSettingSaved
      wEnvStep wEnvStep rfl (by decide)).1⟩

/-- C8: the mode state machine of the primary sketch.  In `NORMAL_MODE`
the mode button switches to `SETTING_MODE` and loads the RTC's hour and
minute into the scratch variables; in `SETTING_MODE` save commits the
scratch values to the RTC and returns to `NORMAL_MODE`, and cancel
returns to `NORMAL_MODE` and re-syncs the display from the RTC without
writing it or using the scratch values. -/
theorem spec_C8_mode_machine :
    ∀ (now : Nat) (b : Buttons) (fuelH fuelM : Nat) (s : ClockState) (e : Env),
      ¬ sub32 now s.lastButtonPressTime < FlipClockRTC.debounceDelay →
      (s.currentMode = ClockMode.NORMAL_MODE → b.modeCancel = true →
        FlipClockRTC.handleButtons now b fuelH fuelM s e = some
          ({ s with
              currentMode := ClockMode.SETTING_MODE,
              settingHour := s.rtcHour,
              settingMinute := s.rtcMinute,
              lastButtonPressTime := now,
              buttonEvents := s.buttonEvents + 1 }, e)) ∧
      (s.currentMode = ClockMode.SETTING_MODE → b.hourInc = false →
        b.minuteInc = false → b.save = true →
        FlipClockRTC.handleButtons now b fuelH fuelM s e = some
          ({ s with
              rtcHour := s.settingHour,
              rtcMinute := s.settingMinute,
              rtcWrites := s.rtcWrites + 1,
              currentMode := ClockMode.NORMAL_MODE,
              lastButtonPressTime := now,
              buttonEvents := s.buttonEvents + 1 }, e)) ∧
      (s.currentMode = ClockMode.SETTING_MODE → b.hourInc = false →
        b.minuteInc = false → b.save = false → b.modeCancel = true →
        (s.currentHourOnClock = -1 ∨
          (0 ≤ s.currentHourOnClock ∧ s.currentHourOnClock < 24)) →
        (s.currentMinuteOnClock = -1 ∨
          (0 ≤ s.currentMinuteOnClock ∧ s.currentMinuteOnClock < 60)) →
        0 ≤ s.rtcHour → s.rtcHour < 24 → 0 ≤ s.rtcMinute → s.rtcMinute < 60 →
        ∀ restH restM, e.stepHour = pressReleases 48 ++ restH →
          e.stepMin = pressReleases 60 ++ restM →
          ∃ s' e', FlipClockRTC.handleButtons now b 24 60 s e = some (s', e') ∧
            s'.currentMode = ClockMode.NORMAL_MODE ∧
            s'.currentHourOnClock = s.rtcHour ∧
            s'.currentMinuteOnClock = s.rtcMinute ∧
            s'.rtcHour = s.rtcHour ∧ s'.rtcMinute = s.rtcMinute ∧
            s'.rtcWrites = s.rtcWrites) := by
  intro now b fuelH fuelM s e hg
  refine ⟨?_, ?_, ?_⟩
  · intro hmode hb
    unfold FlipClockRTC.handleButtons
    rw [if_neg hg, hmode]
    dsimp only
    rw [hb]
    simp [recordPress]
  · intro hmode hbh hbm hbs
    unfold FlipClockRTC.handleButtons
    rw [if_neg hg, hmode]
    dsimp only
    rw [hbh, hbm, hbs]
    simp [recordPress, rtcAdjust]
  · intro hmode hbh hbm hbs hbc hrh hrm hth0 hth1 htm0 htm1 restH restM heH heM
    have hred : FlipClockRTC.handleButtons now b 24 60 s e =
        FlipClockRTC.syncClockToRTC 24 60 { s with
          currentMode := ClockMode.NORMAL_MODE,
          lastButtonPressTime := now,
          buttonEvents := s.buttonEvents + 1 } e := by
      unfold FlipClockRTC.handleButtons
      rw [if_neg hg, hmode]
      dsimp only
      rw [hbh, hbm, hbs, hbc]
      simp [recordPress]
    obtain ⟨s', e', hrun, hfh, hfm⟩ :=
      FlipClockRTC.syncClockToRTC_ok { s with
          currentMode := ClockMode.NORMAL_MODE,
          lastButtonPressTime := now,
          buttonEvents := s.buttonEvents + 1 } e restH restM hrh hrm
        hth0 hth1 htm0 htm1 heH heM
    obtain ⟨-, -, f3, -, -, -, f7, f8, f9, -⟩ := FlipClockRTC.syncClockToRTC_some hrun
    refine ⟨s', e', by rw [hred]; exact hrun, by rw [f3], hfh, hfm, f7, f8, f9⟩

theorem spec_C8_witness :
    FlipClockRTC.handleButtons 1000 ⟨true, false, false, false⟩ 0 0 wState wEnvStep =
      some ({ wState with
          currentMode := ClockMode.SETTING_MODE,
          settingHour := wState.rtcHour,
          settingMinute := wState.rtcMinute,
          lastButtonPressTime := 1000,
          buttonEvents := wState.buttonEvents + 1 }, wEnvStep) :=
  (spec_C8_mode_machine 1000 ⟨true, false, false, false⟩ 0 0 wState wEnvStep
    (by decide)).1 rfl rfl


namespace FlipClockRTC2

/-- In one invocation of the second sketch's `handleButtons`, at most four
button actions fire (the four independent `if` checks of `SETTING_MODE`
can all run in sequence). -/
theorem handleButtons_events_bound :
    ∀ (now : Nat) (b : Buttons) (fuelH fuelM : Nat) (s s' : ClockState)
      (e e' : Env),
      handleButtons now b fuelH fuelM s e = some (s', e') →
      s'.buttonEvents ≤ s.buttonEvents + 4 := by
  intro now b fuelH fuelM s s' e e' h
  unfold handleButtons at h
  by_cases hg : sub32 now s.lastButtonPressTime < debounceDelay
  · rw [if_pos hg] at h
    simp at h
    obtain ⟨h1, -⟩ := h
    subst h1
    omega
  · rw [if_neg hg] at h
    by_cases hmode : s.currentMode = ClockMode.NORMAL_MODE
    · rw [hmode] at h
      dsimp only at h
      by_cases hb : b.modeCancel
      · rw [if_pos hb] at h
        simp [recordPress] at h
        obtain ⟨h1, -⟩ := h
        rw [← h1]
        simp
      · rw [if_neg hb] at h
        simp at h
        obtain ⟨h1, -⟩ := h
        subst h1
        omega
    · have hmode2 : s.currentMode = ClockMode.SETTING_MODE := by
        rcases hsm : s.currentMode with _ | _
        · exact absurd hsm hmode
        · rfl
      rw [hmode2] at h
      dsimp only at h
      split at h
      next heq => simp at h
      next sA eA heq =>
        have hA : sA.buttonEvents ≤ s.buttonEvents + 1 := by
          split at heq
          next hbh =>
            obtain ⟨a1, -⟩ := moveHourToNext_events heq
            rw [a1]
            simp [recordPress]
          next hbh =>
            simp at heq
            obtain ⟨h1, -⟩ := heq
            subst h1
            omega
        split at h
        next heq2 => simp at h
        next sB eB heq2 =>
          have hB : sB.buttonEvents ≤ sA.buttonEvents + 1 := by
            split at heq2
            next hbm =>
              obtain ⟨a1, -⟩ := moveMinuteStep_events heq2
              rw [a1]
              simp [recordPress]
            next hbm =>
              simp at heq2
              obtain ⟨h1, -⟩ := heq2
              subst h1
              omega
          split at h
          next hbc =>
            obtain ⟨a1, -⟩ := syncClockToRTC_events h
            rw [a1]
            by_cases hbs : b.save
            · simp only [hbs] at *
              simp [recordPress, rtcAdjust]
              omega
            · simp only [Bool.not_eq_true] at hbs
              simp only [hbs] at *
              simp [recordPress]
              omega
          next hbc =>
            simp at h
            obtain ⟨h1, -⟩ := h
            rw [← h1]
            by_cases hbs : b.save
            · simp only [hbs]
              simp [recordPress, rtcAdjust]
              omega
            · simp only [Bool.not_eq_true] at hbs
              simp only [hbs]
              simp
              omega

end FlipClockRTC2

namespace FlipClockRTC

/-- In one invocation of the primary `handleButtons` at most one button
action fires, and any action records the press time. -/
theorem handleButtons_one_action :
    ∀ (now : Nat) (b : Buttons) (fuelH fuelM : Nat) (s s' : ClockState)
      (e e' : Env),
      handleButtons now b fuelH fuelM s e = some (s', e') →
      s'.buttonEvents ≤ s.buttonEvents + 1 ∧
      (s'.buttonEvents ≠ s.buttonEvents → s'.lastButtonPressTime = now) := by
  intro now b fuelH fuelM s s' e e' h
  rcases handleButtons_cases now b fuelH fuelM s s' e e' h with
    ⟨-, hs, -⟩ | ⟨-, -, -, hs, -⟩ | ⟨-, -, -, hs, -⟩ | ⟨-, -, -, hmv⟩ |
    ⟨-, -, -, -, hmv⟩ | ⟨-, -, -, -, -, hs, -⟩ | ⟨-, -, -, -, -, -, hmv⟩ |
    ⟨-, -, -, -, -, -, hs, -⟩
  · subst hs
    exact ⟨by omega, fun hne => absurd rfl hne⟩
  · subst hs
    exact ⟨by simp, fun _ => rfl⟩
  · subst hs
    exact ⟨by omega, fun hne => absurd rfl hne⟩
  · obtain ⟨hs, -⟩ := moveHourToNext_some hmv
    subst hs
    exact ⟨by simp, fun _ => rfl⟩
  · obtain ⟨hs, -⟩ := moveMinuteStep_some hmv
    subst hs
    exact ⟨by simp, fun _ => rfl⟩
  · subst hs
    exact ⟨by simp, fun _ => rfl⟩
  · obtain ⟨-, -, -, -, -, f6, -, -, -, f10, -⟩ := syncClockToRTC_some hmv
    refine ⟨by rw [f10], fun _ => by rw [f6]⟩
  · subst hs
    exact ⟨by omega, fun hne => absurd rfl hne⟩

end FlipClockRTC

/-- The state produced by the second sketch's handler from `wSetting` at
`millis = 1000` when the hour+ and minute+ buttons are both pressed:
both scratch variables incremented, both dials stepped, two button
actions in one invocation. -/
def wSettingStepped : ClockState :=
  ⟨1, 1, ClockMode.SETTING_MODE, 6, 31, 1000, 5, 30, 0, [95, 90], [85, 90, 85, 90], 2⟩

/-- The empty switch-reading environment. -/
def wEnvEmpty : Env := ⟨[], [], [], []⟩

/-- The literal reading of C7's "at most one button action is performed
per invocation of the button handler", over the second sketch's
`handleButtons` (named in C7's sources). -/
def oneActionPerInvocation : Prop :=
  ∀ (now : Nat) (b : Buttons) (fuelH fuelM : Nat) (s s' : ClockState)
    (e e' : Env),
    FlipClockRTC2.handleButtons now b fuelH fuelM s e = some (s', e') →
    s'.buttonEvents ≤ s.buttonEvents + 1

/-- C7 counterexample: in the second sketch's handler the `SETTING_MODE`
button checks are independent `if` statements, so pressing hour+ and
minute+ together fires two debounce-recording actions in one invocation
(and 0 ms apart, inside the supposed 250 ms cooldown). -/
theorem spec_C7_counterexample : ¬ oneActionPerInvocation := by
  intro hcl
  have h := hcl 1000 ⟨false, true, true, false⟩ 0 0 wSetting wSettingStepped
    wEnvStep wEnvEmpty (by decide)
  exact absurd h (by decide)

/-- C7 (amended): all button handling is blocked for `debounceDelay`
(250 ms) after the last recorded press by a guard shared across all
buttons, and every action records the press time.  The primary sketch's
`else if` handler performs at most one button action per invocation; the
second sketch's handler, whose `SETTING_MODE` checks are independent
`if` statements, can perform up to four actions in one invocation. -/
theorem spec_C7_amended :
    (∀ (now : Nat) (b : Buttons) (fuelH fuelM : Nat) (s : ClockState) (e : Env),
      sub32 now s.lastButtonPressTime < FlipClockRTC.debounceDelay →
      FlipClockRTC.handleButtons now b fuelH fuelM s e = some (s, e) ∧
      FlipClockRTC2.handleButtons now b fuelH fuelM s e = some (s, e)) ∧
    (∀ (now : Nat) (b : Buttons) (fuelH fuelM : Nat) (s s' : ClockState)
      (e e' : Env),
      FlipClockRTC.handleButtons now b fuelH fuelM s e = some (s', e') →
      s'.buttonEvents ≤ s.buttonEvents + 1 ∧
      (s'.buttonEvents ≠ s.buttonEvents → s'.lastButtonPressTime = now)) ∧
    (∀ (now : Nat) (b : Buttons) (fuelH fuelM : Nat) (s s' : ClockState)
      (e e' : Env),
      FlipClockRTC2.handleButtons now b fuelH fuelM s e = some (s', e') →
      s'.buttonEvents ≤ s.buttonEvents + 4) := by
  refine ⟨?_, FlipClockRTC.handleButtons_one_action,
    FlipClockRTC2.handleButtons_events_bound⟩
  intro now b fuelH fuelM s e hg
  exact ⟨FlipClockRTC.handleButtons_guard now b fuelH fuelM s e hg,
    FlipClockRTC2.handleButtons2_guard now b fuelH fuelM s e hg⟩

theorem spec_C7_witness :
    (FlipClockRTC.handleButtons 100 ⟨false, false, false, true⟩ 0 0 wSetting
      wEnvStep = some (wSetting, wEnvStep) ∧
    FlipClockRTC2.handleButtons 100 ⟨false, false, false, true⟩ 0 0 wSetting
      wEnvStep = some (wSetting, wEnvStep)) ∧
    (wSettingStepped.buttonEvents ≤ wSetting.buttonEvents + 4) :=
  ⟨spec_C7_amended.1 100 ⟨false, false, false, true⟩ 0 0 wSetting wEnvStep
      (by decide),
   spec_C7_amended.2.2 1000 ⟨false, true, true, false⟩ 0 0 wSetting
      wSettingStepped wEnvStep wEnvEmpty (by decide)⟩
